import Mathlib

/-!
Verification of the Silo link-manager core (link ingestion, enrichment and
retrieval pipeline) against its natural-language specification.

The Python sources are shallowly embedded: pure functions become Lean
functions over `List Char` models of Python strings, the PostgreSQL layer is
modelled by explicit table states and an injected statement outcome, and the
external network services (HTTP fetch, headless renderer, OpenAI chat /
embedding / vision endpoints) are modelled as oracle parameters.  External
library behaviour (BeautifulSoup parsing, urljoin) is likewise abstracted as
oracle inputs; everything the repository itself computes is translated
faithfully from the source.
-/

namespace Silo

/-! ## Python string primitives

Python `str` values are modelled as Lean `String`s, manipulated through their
`List Char` representation so that all operations reduce in the kernel.
-/

/-- Model of Python `str.lower()` (ASCII case folding, which is what the
queries and titles in this code path exercise). -/
def pyLower (s : String) : String := String.mk (s.toList.map Char.toLower)

/-- Whitespace test used by `str.strip`/`str.split`/`\s`. -/
def wsp (c : Char) : Bool := c.isWhitespace

/-- Model of Python `str.strip()`: drop whitespace from both ends. -/
def pyStrip (s : String) : String :=
  String.mk (((s.toList.dropWhile wsp).reverse.dropWhile wsp).reverse)

/-- Collects maximal runs of characters satisfying `keep`; the second
argument accumulates the current (reversed) run. -/
def splitRuns (keep : Char → Bool) : List Char → List Char → List String
  | [], acc => if acc.isEmpty then [] else [String.mk acc.reverse]
  | c :: rest, acc =>
    if keep c then splitRuns keep rest (c :: acc)
    else if acc.isEmpty then splitRuns keep rest []
    else String.mk acc.reverse :: splitRuns keep rest []

/-- Model of Python `str.split()` with no separator: whitespace-delimited
tokens, empty strings dropped. -/
def pySplit (s : String) : List String := splitRuns (fun c => !wsp c) s.toList []

/-- Character class `[A-Za-z0-9']` of the retriever's token regex
(`Char.isAlpha`/`Char.isDigit` are exactly the ASCII classes). -/
def isWordChar (c : Char) : Bool := c.isAlpha || c.isDigit || c = Char.ofNat 39

/-- Model of `re.findall(r"[A-Za-z0-9']+", s)`. -/
def wordTokens (s : String) : List String := splitRuns isWordChar s.toList []

/-- Does `pat` occur at the head of `s`? -/
def startsList : List Char → List Char → Bool
  | _, [] => true
  | [], _ :: _ => false
  | a :: as, b :: bs => a == b && startsList as bs

/-- Does `pat` occur anywhere in `s`?  Model of Python `pat in s`. -/
def containsList : List Char → List Char → Bool
  | [], pat => pat.isEmpty
  | c :: t, pat => startsList (c :: t) pat || containsList t pat

/-- Python substring test `pat in s`. -/
def strContains (s pat : String) : Bool := containsList s.toList pat.toList

/-- Python truthiness of an optional string: `None` and `""` are falsy. -/
def optStrFalsy : Option String → Bool
  | none => true
  | some s => s = ""

/-- Python `a or b` on optional strings (left value kept when truthy). -/
def pyOr (a b : Option String) : Option String :=
  if optStrFalsy a then b else a

/-- Python `x or ""` on an optional string. -/
def pyOrEmpty (a : Option String) : String :=
  match a with
  | none => ""
  | some s => s

/-- Order-preserving de-duplication, keeping first occurrences
(model of `dict.fromkeys`). -/
def dedupFirstAux (seen : List String) : List String → List String
  | [] => []
  | x :: xs => if x ∈ seen then dedupFirstAux seen xs else x :: dedupFirstAux (x :: seen) xs

/-- Model of `list(dict.fromkeys(l))`. -/
def dedupFirst (l : List String) : List String := dedupFirstAux [] l

/-! ## Persistence layer: transaction discipline (`database.py`)

`_cursor(commit=True)` yields a cursor, commits when the body finishes
normally, and on any exception rolls back, logs and re-raises.  The body of
each mutating operation is its SQL statement execution, whose outcome
(normal return or raised exception) is injected as an `Except` value.
Exceptions are split into `psycopg2.Error` and everything else, because
`add_link` catches exactly `psycopg2.Error`.
-/

namespace Db

/-- Python exception value: a `psycopg2.Error` or any other exception. -/
inductive PyExc where
  | pgError (msg : String)
  | exc (msg : String)
  deriving DecidableEq, Repr

/-- Is this exception a `psycopg2.Error`? -/
def PyExc.isPgError : PyExc → Bool
  | PyExc.pgError _ => true
  | PyExc.exc _ => false

/-- How the connection of one `_cursor` block ended. -/
inductive TxEnd where
  | committed
  | closed
  | rolledBack
  deriving DecidableEq, Repr

/-- Model of `database._cursor(commit=...)`: the body either returns a value
(commit if requested, otherwise just close) or raises (roll back, log,
re-raise). -/
def cursorRun {α : Type} (commit : Bool) (body : Except PyExc α) :
    Except PyExc α × TxEnd :=
  match body with
  | Except.ok a => (Except.ok a, if commit then TxEnd.committed else TxEnd.closed)
  | Except.error e => (Except.error e, TxEnd.rolledBack)

/-- Model of `database.add_link`: inside `_cursor(commit=True)` the
INSERT ... ON CONFLICT statement runs in a `try` block whose
`except psycopg2.Error` clause logs and returns `None`.  `exec` is the
outcome of executing the statement and fetching the returned `link_id`.
The second component reports how the surrounding transaction ended. -/
def add_link (exec : Except PyExc (Option Nat)) :
    Except PyExc (Option Nat) × TxEnd :=
  cursorRun true
    (match exec with
     | Except.ok r => Except.ok r
     | Except.error e => if e.isPgError then Except.ok none else Except.error e)

/-- Model of `database.update_link_details`: columns with a `None` value are
skipped; when no assignment remains the function returns before opening a
cursor (`none` transaction), otherwise the UPDATE runs in
`_cursor(commit=True)`. -/
def update_link_details (fields : List (String × Option String))
    (exec : Except PyExc Unit) : Except PyExc Unit × Option TxEnd :=
  if fields.filter (fun f => f.2.isSome) = [] then (Except.ok (), none)
  else
    let r := cursorRun true exec
    (r.1, some r.2)

/-- Model of `database.add_link_metadata`: empty metadata returns before
opening a cursor; otherwise the upsert runs in `_cursor(commit=True)`. -/
def add_link_metadata (metadata : List (String × String))
    (exec : Except PyExc Unit) : Except PyExc Unit × Option TxEnd :=
  if metadata = [] then (Except.ok (), none)
  else
    let r := cursorRun true exec
    (r.1, some r.2)

/-- Model of `database.add_link_categories`: empty input returns before
opening a cursor; otherwise the inserts run in `_cursor(commit=True)`. -/
def add_link_categories (categories : List String)
    (exec : Except PyExc Unit) : Except PyExc Unit × Option TxEnd :=
  if categories = [] then (Except.ok (), none)
  else
    let r := cursorRun true exec
    (r.1, some r.2)

/-- Model of `database.add_link_entities`: empty input returns before opening
a cursor; otherwise the inserts run in `_cursor(commit=True)`. -/
def add_link_entities (entities : List (Option String × Option String))
    (exec : Except PyExc Unit) : Except PyExc Unit × Option TxEnd :=
  if entities = [] then (Except.ok (), none)
  else
    let r := cursorRun true exec
    (r.1, some r.2)

/-- Model of `database.record_link_source`: always runs its INSERT inside
`_cursor(commit=True)`. -/
def record_link_source (exec : Except PyExc Unit) : Except PyExc Unit × TxEnd :=
  cursorRun true exec

/-- Model of `database.add_link_snapshot`: a falsy snapshot URL returns
before opening a cursor; otherwise the INSERT runs in `_cursor(commit=True)`. -/
def add_link_snapshot (snapshot_url : String)
    (exec : Except PyExc Unit) : Except PyExc Unit × Option TxEnd :=
  if snapshot_url = "" then (Except.ok (), none)
  else
    let r := cursorRun true exec
    (r.1, some r.2)

/-- Model of `database.store_link_embedding`: an empty embedding returns
before opening a cursor; otherwise the upsert runs in `_cursor(commit=True)`. -/
def store_link_embedding (embedding : List Int)
    (exec : Except PyExc Unit) : Except PyExc Unit × Option TxEnd :=
  if embedding = [] then (Except.ok (), none)
  else
    let r := cursorRun true exec
    (r.1, some r.2)

end Db

/-! ## Persistence layer: `add_link` upsert semantics

The `links` table is modelled as a list of rows plus the next SERIAL value.
`INSERT ... ON CONFLICT (user_id, url) DO UPDATE SET col =
COALESCE(EXCLUDED.col, links.col)` merges non-null incoming fields over the
existing row. -/

namespace Sql

/-- One row of the `links` table (the columns touched by `add_link`). -/
structure LinkRow where
  link_id : Nat
  user_id : Int
  url : String
  title : Option String
  description : Option String
  domain : Option String
  deriving DecidableEq, Repr

/-- State of the `links` table. -/
structure LinksTable where
  rows : List LinkRow
  next_id : Nat
  deriving DecidableEq, Repr

/-- The UNIQUE (user_id, url) key of a row. -/
def rowKey (r : LinkRow) : Int × String := (r.user_id, r.url)

/-- Does `r` conflict with the incoming (user_id, url)? -/
def keyMatch (user_id : Int) (url : String) (r : LinkRow) : Bool :=
  r.user_id = user_id && r.url = url

/-- SQL COALESCE restricted to two arguments. -/
def coalesce (a b : Option String) : Option String :=
  match a with
  | some x => some x
  | none => b

/-- The DO UPDATE SET assignment list of `add_link` applied to an existing
row (EXCLUDED.* are the incoming values). -/
def mergeRow (title description domain : Option String) (r : LinkRow) : LinkRow :=
  { r with
    title := coalesce title r.title
    description := coalesce description r.description
    domain := coalesce domain r.domain }

/-- Semantics of the `add_link` INSERT ... ON CONFLICT statement on the
`links` table: update the conflicting row if one exists, otherwise append a
fresh row with the next SERIAL id. -/
def add_link_upsert (t : LinksTable) (user_id : Int) (url : String)
    (title description domain : Option String) : LinksTable :=
  if t.rows.any (keyMatch user_id url) then
    { t with
      rows := t.rows.map (fun r =>
        if keyMatch user_id url r then mergeRow title description domain r else r) }
  else
    { rows := t.rows ++ [⟨t.next_id, user_id, url, title, description, domain⟩],
      next_id := t.next_id + 1 }

/-- Lookup of the (unique) row for a (user_id, url) pair. -/
def findLink (t : LinksTable) (user_id : Int) (url : String) : Option LinkRow :=
  t.rows.find? (keyMatch user_id url)

/-- The (user_id, url) uniqueness invariant of the `links` table. -/
def UniqueKeys (t : LinksTable) : Prop := (t.rows.map rowKey).Nodup

end Sql

/-! ## Content pipeline (`link_processor.py`)

BeautifulSoup parsing is abstracted as a `Soup` accessor record and
`urllib.parse.urljoin` as an oracle function; everything computed by
`link_processor.py` itself (truthiness guards, fallback lists, word counts,
read times, the renderer/OCR escalation ladder) is translated from the
source. -/

namespace Pipeline

open Silo

/-- Accessors of a parsed HTML document (the BeautifulSoup object):
`titleString` is `soup.title.string` (when the tag and its string exist),
`metaContent` is the `content` attribute of the first meta tag with the
given name/property, `faviconHref`/`canonicalHref` are the `href` attributes
of the icon and canonical link tags, `htmlLang` is the `lang` attribute of
the html tag. -/
structure Soup where
  titleString : Option String
  metaContent : String → Option String
  faviconHref : Option String
  canonicalHref : Option String
  htmlLang : Option String

/-- External parsing dependencies: the soup accessors per HTML document, the
raw visible text produced by BeautifulSoup `get_text` after dropping
script/style/noscript/header/footer/nav (whitespace collapsing is done by
the repository code and modelled below), and stdlib `urljoin`. -/
structure ParseDeps where
  soup : String → Soup
  rawText : String → String
  urljoin : String → String → String

/-- Replaces each maximal whitespace run by a single space
(`re.sub(r"\s+", " ", text)`); the flag records whether the previous
character was part of a run. -/
def collapseRuns : List Char → Bool → List Char
  | [], _ => []
  | c :: t, inRun =>
    if wsp c then
      if inRun then collapseRuns t true else ' ' :: collapseRuns t true
    else c :: collapseRuns t false

/-- Model of `extract_text_content`: empty HTML yields `""`; otherwise the
BeautifulSoup text is whitespace-collapsed and stripped. -/
def extract_text_content (d : ParseDeps) (html_content : String) : String :=
  if html_content = "" then ""
  else pyStrip (String.mk (collapseRuns (d.rawText html_content).toList false))

/-- Model of `_find_meta_content`: first candidate name whose meta tag has a
truthy `content`, stripped. -/
def find_meta_content (soup : Soup) : List String → Option String
  | [] => none
  | n :: rest =>
    match soup.metaContent n with
    | some c => if c ≠ "" then some (pyStrip c) else find_meta_content soup rest
    | none => find_meta_content soup rest

/-- Model of `_absolute_url`. -/
def absolute_url (d : ParseDeps) (href : Option String) (base_url : Option String) :
    Option String :=
  match href with
  | none => none
  | some h =>
    if h = "" then none
    else
      match base_url with
      | none => some h
      | some b => if b = "" then some h else some (d.urljoin b h)

/-- Everything after the first `//` of a URL. -/
def afterSlashes : List Char → List Char
  | [] => []
  | c :: t => if startsList (c :: t) ['/', '/'] then t.drop 1 else afterSlashes t

/-- Model of `urllib.parse.urlparse(url).netloc` for the common URL shapes
this pipeline sees: the text between the first `//` and the next
`/`, `?` or `#`; empty when the URL has no `//`. -/
def netloc (url : String) : String :=
  if strContains url "//" then
    String.mk ((afterSlashes url.toList).takeWhile
      (fun c => !(c = '/' || c = '?' || c = '#')))
  else ""

/-- Model of `math.ceil(word_count / 200) if word_count else None`
(the ceiling computed on naturals). -/
def readTimeOf (word_count : Nat) : Option Nat :=
  if word_count = 0 then none else some ((word_count + 199) / 200)

/-- The metadata dictionary produced by `extract_metadata` (all keys; a
`none` field models either an explicit `None` value or, for the empty-HTML
`{}` result, an absent key). -/
structure Metadata where
  title : Option String := none
  description : Option String := none
  author : Option String := none
  publish_date : Option String := none
  favicon : Option String := none
  domain : Option String := none
  language : Option String := none
  content_type : Option String := none
  canonical_url : Option String := none
  word_count : Option Nat := none
  read_time : Option Nat := none
  text_content : Option String := none
  deriving DecidableEq, Repr

/-- Model of `extract_metadata`. -/
def extract_metadata (d : ParseDeps) (html_content : String)
    (url : Option String) (content_type : Option String) : Metadata :=
  if html_content = "" then {}
  else
    let soup := d.soup html_content
    let title :=
      match soup.titleString with
      | some s => if s ≠ "" then pyStrip s else ""
      | none => ""
    let description := pyOrEmpty (find_meta_content soup ["og:description", "description"])
    let author := find_meta_content soup
      ["author", "article:author", "og:author", "twitter:creator"]
    let publish_date := find_meta_content soup
      ["article:published_time", "og:published_time", "publication_date", "date"]
    let favicon :=
      match soup.faviconHref with
      | some href => absolute_url d (some href) url
      | none => none
    let canonical_href :=
      match soup.canonicalHref with
      | some h => if h ≠ "" then some h else none
      | none => none
    let canonical_url := absolute_url d canonical_href url
    let language :=
      match soup.htmlLang with
      | some lang => if lang ≠ "" then some lang else none
      | none => none
    let text_content := extract_text_content d html_content
    let word_count := (pySplit text_content).length
    let read_time := readTimeOf word_count
    let domain :=
      match url with
      | some u => if u ≠ "" then some (pyLower (netloc u)) else none
      | none => none
    { title := if title = "" then none else some title
      description := if description = "" then none else some description
      author := author
      publish_date := publish_date
      favicon := favicon
      domain := match domain with
        | some dstr => if dstr = "" then none else some dstr
        | none => none
      language := language.map pyLower
      content_type := content_type
      canonical_url := pyOr canonical_url url
      word_count := some word_count
      read_time := read_time
      text_content := some text_content }

/-- Model of `_update_metadata_counts`: word count and read time are
recomputed from the final text. -/
def update_metadata_counts (metadata : Metadata) (text_content : String) : Metadata :=
  let word_count := (pySplit text_content).length
  { metadata with word_count := some word_count, read_time := readTimeOf word_count }

/-- The configuration fields consulted by the escalation ladder. -/
structure PipelineConfig where
  ENABLE_RENDERER : Bool
  RENDERER_URL : Option String
  RENDERER_MIN_WORDS : Nat
  deriving DecidableEq, Repr

/-- Model of `_should_retry_with_renderer`. -/
def should_retry_with_renderer (cfg : PipelineConfig) (text_content : String)
    (metadata : Metadata) : Bool :=
  if !cfg.ENABLE_RENDERER || optStrFalsy cfg.RENDERER_URL then false
  else if text_content = "" then true
  else
    let word_count := (pySplit text_content).length
    if cfg.RENDERER_MIN_WORDS ≤ word_count then false
    else if decide (word_count < cfg.RENDERER_MIN_WORDS) && optStrFalsy metadata.description then true
    else false

/-- The renderer escalation guard as the specification words it: rendering
enabled and configured, and either the tier-1 text is empty, or its word
count is below the configured minimum and the tier-1 metadata has no
description. -/
def render_escalation_claim (cfg : PipelineConfig) (text_content : String)
    (metadata : Metadata) : Bool :=
  cfg.ENABLE_RENDERER && !(optStrFalsy cfg.RENDERER_URL) &&
    (text_content = "" ||
      (decide ((pySplit text_content).length < cfg.RENDERER_MIN_WORDS) &&
        optStrFalsy metadata.description))

/-- Outcome of `fetch_page_content` on success. -/
structure Page where
  html : String
  content_type : String
  final_url : String
  deriving DecidableEq, Repr

/-- Outcome of `render_with_browser` on success (`rendering_client.py`
normalises html/text to strings and mime to a default before returning). -/
structure RenderResult where
  html : String
  text_content : String
  resolved_url : Option String
  screenshot_base64 : Option String
  screenshot_mime : Option String
  status : Option String
  deriving DecidableEq, Repr

/-- The pipeline's external collaborators: configuration, parsing, the HTTP
fetch, the renderer service, the vision OCR (`extract_text_from_image`,
returning `""` on failure) and the screenshot persistence step. -/
structure PipelineDeps where
  cfg : PipelineConfig
  parse : ParseDeps
  fetch : String → Option Page
  render : String → Option RenderResult
  ocr : String → String → String
  persist : String → String → Option String

/-- The mutable local state of one `process_url` run. -/
structure RState where
  html : String
  content_type : String
  final_url : String
  metadata : Metadata
  text_content : String
  screenshot_path : Option String
  extraction_method : String
  render_status : Option String
  deriving DecidableEq, Repr

/-- The body of the renderer branch of `process_url` (lines executed when
`_should_retry_with_renderer` fired and `render_with_browser` returned a
result). -/
def renderBranch (d : PipelineDeps) (st : RState) (rr : RenderResult) : RState :=
  let final_url :=
    match rr.resolved_url with
    | some u => if u ≠ "" then u else st.final_url
    | none => st.final_url
  let step1 : String × Metadata × String :=
    if rr.html ≠ "" then
      let md := extract_metadata d.parse rr.html (some final_url) (some st.content_type)
      (rr.html, { md with text_content := none }, pyOrEmpty md.text_content)
    else (st.html, st.metadata, st.text_content)
  let html := step1.1
  let metadata := step1.2.1
  let text1 := step1.2.2
  let text2 :=
    if text1 = "" ∧ rr.text_content ≠ "" then pyStrip rr.text_content else text1
  let step2 : Option String × String :=
    match rr.screenshot_base64 with
    | some b64 =>
      if b64 ≠ "" then
        let mime :=
          match rr.screenshot_mime with
          | some m => if m ≠ "" then m else "image/png"
          | none => "image/png"
        let sp := d.persist b64 mime
        let needs_ocr :=
          text2 = "" ∨ (pySplit text2).length < d.cfg.RENDERER_MIN_WORDS
        let text3 :=
          if needs_ocr then
            let ocr_text := d.ocr b64 mime
            if ocr_text ≠ "" then pyStrip ocr_text else text2
          else text2
        (sp, text3)
      else (none, text2)
    | none => (none, text2)
  { html := html
    content_type := st.content_type
    final_url := final_url
    metadata := metadata
    text_content := step2.2
    screenshot_path := step2.1
    extraction_method := "renderer"
    render_status := rr.status }

/-- The tuple returned by `process_url` on success. -/
structure ProcessResult where
  html : String
  resolved_url : String
  metadata : Metadata
  text_content : String
  screenshot_path : Option String
  extraction_method : String
  render_status : Option String
  deriving DecidableEq, Repr

/-- Model of `process_url`: direct fetch, conditional renderer escalation
(with conditional OCR inside), then recomputation of the metadata counts
from the final text. -/
def process_url (d : PipelineDeps) (url : String) : Option ProcessResult :=
  match d.fetch url with
  | none => none
  | some page =>
    let final_url := page.final_url
    let md0 := extract_metadata d.parse page.html (some final_url) (some page.content_type)
    let text0 := pyOrEmpty md0.text_content
    let st0 : RState :=
      { html := page.html
        content_type := page.content_type
        final_url := final_url
        metadata := { md0 with text_content := none }
        text_content := text0
        screenshot_path := none
        extraction_method := "direct"
        render_status := none }
    let st :=
      if should_retry_with_renderer d.cfg text0 st0.metadata then
        match d.render final_url with
        | some rr => renderBranch d st0 rr
        | none => st0
      else st0
    some { html := st.html
           resolved_url := st.final_url
           metadata := update_metadata_counts st.metadata st.text_content
           text_content := st.text_content
           screenshot_path := st.screenshot_path
           extraction_method := st.extraction_method
           render_status := st.render_status }

/-- How many times one `process_url` run invokes `render_with_browser`:
the function's single renderer call site sits under the
`_should_retry_with_renderer` guard computed on the tier-1 text and
metadata. -/
def renderer_calls (d : PipelineDeps) (url : String) : Nat :=
  match d.fetch url with
  | none => 0
  | some page =>
    let md0 := extract_metadata d.parse page.html (some page.final_url) (some page.content_type)
    let text0 := pyOrEmpty md0.text_content
    if should_retry_with_renderer d.cfg text0 { md0 with text_content := none } then 1 else 0

end Pipeline

/-! ## AI enrichment and embeddings (`link_intelligence.py`)

The OpenAI chat and embedding endpoints are oracles mapping (model, input)
to an outcome; everything the repository computes around the calls —
truthiness guards, prompt assembly, character budgets, the single
fallback-model retry, and output normalisation — is translated from the
source.  `DEFAULT_MODEL`/`DEFAULT_EMBEDDING_MODEL` are passed as parameters
since they come from the environment (`config... or "gpt-4o-mini"` /
`... or "text-embedding-3-small"`). -/

namespace Intel

open Silo

/-- Python `model or default` for a string-valued keyword argument. -/
def pyOrStr (a : Option String) (b : String) : String :=
  if optStrFalsy a then b else pyOrEmpty a

/-- One extracted entity after normalisation. -/
structure Entity where
  name : String
  type : Option String
  deriving DecidableEq, Repr

/-- The structured analysis object consumed downstream. -/
structure Analysis where
  category : Option String
  categories : List String
  topics : List String
  entities : List Entity
  summary : String
  tags : List String
  deriving DecidableEq, Repr

/-- The fixed degraded-default analysis object. -/
def DEFAULT_ANALYSIS : Analysis :=
  { category := none
    categories := []
    topics := []
    entities := []
    summary := "No summary available."
    tags := [] }

/-- A JSON value fed to `_ensure_list_of_strings`: null/absent, a string, or
a list of strings (stringified items). -/
inductive StrListVal where
  | nullv
  | strv (s : String)
  | listv (items : List String)
  deriving DecidableEq, Repr

/-- Model of `_ensure_list_of_strings` (falsy input gives `[]`; falsy list
items are dropped). -/
def ensure_list_of_strings : StrListVal → List String
  | StrListVal.nullv => []
  | StrListVal.strv s => if s = "" then [] else [s]
  | StrListVal.listv items =>
    if items = [] then [] else items.filter (fun i => i ≠ "")

/-- A raw entity item that arrived as a JSON object. -/
structure RawEntityObj where
  name : Option String
  entity : Option String
  value : Option String
  type : Option String
  category : Option String
  deriving DecidableEq, Repr

/-- A raw entity item: an object, or a bare (stringified) value. -/
inductive RawEntity where
  | obj (o : RawEntityObj)
  | prim (s : String)
  deriving DecidableEq, Repr

/-- The JSON dictionary returned by the model, restricted to the keys
`_normalise_ai_output` reads. -/
structure RawAnalysis where
  type : Option String
  category : Option String
  topics : StrListVal
  tags : StrListVal
  entities : Option (List RawEntity)
  summary : Option String
  deriving DecidableEq, Repr

/-- Model of `_normalise_ai_output` (`none` input models a parsed payload
that is not a dict). -/
def normalise_ai_output (raw : Option RawAnalysis) : Analysis :=
  match raw with
  | none => DEFAULT_ANALYSIS
  | some raw =>
    let category := pyOr raw.type raw.category
    let topics := ensure_list_of_strings raw.topics
    let tags := ensure_list_of_strings raw.tags
    let entities_input := match raw.entities with
      | some l => l
      | none => []
    let entities := entities_input.filterMap (fun item =>
      match item with
      | RawEntity.obj o =>
        let name := pyOr (pyOr o.name o.entity) o.value
        let entity_type := pyOr o.type o.category
        if optStrFalsy name then none
        else some { name := pyOrEmpty name, type := entity_type }
      | RawEntity.prim s =>
        if s = "" then none else some { name := s, type := none })
    let categories :=
      (match category with
       | some c => if c ≠ "" then [c] else []
       | none => []) ++ topics.filter (fun t => t ≠ "")
    let summary :=
      match raw.summary with
      | some s => if s ≠ "" then s else DEFAULT_ANALYSIS.summary
      | none => DEFAULT_ANALYSIS.summary
    { category := category
      categories := dedupFirst categories
      topics := topics
      entities := entities
      summary := summary
      tags := tags }

/-- Outcome of one `client.chat.completions.create` call as
`analyze_text_content` inspects it: an exception raised during the call or
during `json.loads`, a falsy/choice-less response, an empty message payload,
or a parsed JSON payload (`none` = not a dict). -/
inductive ChatOutcome where
  | raises (e : String)
  | noChoices
  | emptyPayload
  | ok (raw : Option RawAnalysis)
  deriving DecidableEq, Repr

/-- Model of the user-message assembly of `analyze_text_content` (optional
context block, then the webpage content truncated to 6000 characters). -/
def user_message (user_context : Option String) (text_content : String) : String :=
  let content := "WEBPAGE CONTENT: " ++ String.mk (text_content.toList.take 6000)
  match user_context with
  | some uc =>
    if uc ≠ "" then "USER CONTEXT: " ++ uc ++ "\n" ++ "---" ++ "\n" ++ content
    else content
  | none => content

/-- Model of `analyze_text_content`: empty text short-circuits to the
default; a raised call retries once on `"gpt-4o-mini"` when no model was
supplied and the first call was not already on it; all other failure shapes
return the default; success is normalised. -/
def analyze_text_content (svc : String → String → ChatOutcome) (defaultModel : String)
    (text_content : String) (model : Option String) (user_context : Option String) :
    Analysis :=
  if text_content = "" then DEFAULT_ANALYSIS
  else
    let model_to_use := pyOrStr model defaultModel
    match svc model_to_use (user_message user_context text_content) with
    | ChatOutcome.noChoices => DEFAULT_ANALYSIS
    | ChatOutcome.emptyPayload => DEFAULT_ANALYSIS
    | ChatOutcome.ok raw => normalise_ai_output raw
    | ChatOutcome.raises _ =>
      if optStrFalsy model ∧ model_to_use ≠ "gpt-4o-mini" then
        analyze_text_content svc defaultModel text_content (some "gpt-4o-mini") none
      else DEFAULT_ANALYSIS
termination_by (if optStrFalsy model then 1 else 0)
decreasing_by
  rename_i h
  simp only [h.1, if_true]
  decide

/-- The sequence of models `analyze_text_content` actually calls the chat
endpoint with (mirrors the call sites of the source function). -/
def analyze_calls (svc : String → String → ChatOutcome) (defaultModel : String)
    (text_content : String) (model : Option String) (user_context : Option String) :
    List String :=
  if text_content = "" then []
  else
    let model_to_use := pyOrStr model defaultModel
    match svc model_to_use (user_message user_context text_content) with
    | ChatOutcome.raises _ =>
      if optStrFalsy model ∧ model_to_use ≠ "gpt-4o-mini" then
        model_to_use :: analyze_calls svc defaultModel text_content (some "gpt-4o-mini") none
      else [model_to_use]
    | _ => [model_to_use]
termination_by (if optStrFalsy model then 1 else 0)
decreasing_by
  rename_i h
  simp only [h.1, if_true]
  decide

/-- Outcome of one `client.embeddings.create` call as `generate_embedding`
inspects it: an exception, or a response whose
`data[0].embedding if response and response.data else None` value is given. -/
inductive EmbedOutcome where
  | raises (e : String)
  | ok (vector : Option (List Int))
  deriving DecidableEq, Repr

/-- The embedding payload returned on success. -/
structure EmbeddingPayload where
  vector : List Int
  model : String
  deriving DecidableEq, Repr

/-- Model of `generate_embedding`: null on empty input, any exception, or a
falsy vector; otherwise the vector together with the model used. -/
def generate_embedding (svc : String → String → EmbedOutcome)
    (defaultEmbeddingModel : String) (text_content : String) (model : Option String) :
    Option EmbeddingPayload :=
  if text_content = "" then none
  else
    let model_to_use := pyOrStr model defaultEmbeddingModel
    match svc model_to_use text_content with
    | EmbedOutcome.raises _ => none
    | EmbedOutcome.ok vector =>
      match vector with
      | none => none
      | some v => if v = [] then none else some { vector := v, model := model_to_use }

/-- How many times one `generate_embedding` run calls the embeddings
endpoint (the function's single call site sits behind the empty-text
guard). -/
def embedding_calls (text_content : String) : Nat :=
  if text_content = "" then 0 else 1

/-- The text `handlers.process_shared_links` submits to `generate_embedding`
for a link whose extracted text is `text_content`: the slice
`text_content[:4000]`. -/
def handler_embedding_input (text_content : String) : String :=
  String.mk (text_content.toList.take 4000)

end Intel

/-! ## Query retriever (`link_retriever.py`)

`database.search_links` and `database.get_recent_links` are SQL queries and
enter the model as a database oracle; `datetime.now(timezone.utc)` enters as
an epoch-second instant.  Everything `link_retriever.py` computes — the
recent/latest short-circuit, temporal filters, entity extraction, the three
search passes with URL de-duplication, and relevance scoring with Python's
stable sort — is translated from the source. -/

namespace Retriever

open Silo

/-- The stop-word set of `link_retriever.py`. -/
def STOP_WORDS : List String :=
  ["the", "and", "about", "please", "show", "find", "me", "for", "that",
   "this", "what", "was", "were", "is", "are", "be", "a", "an", "to", "on", "in"]

/-- The temporal-token set of `link_retriever.py`. -/
def TEMPORAL_TOKENS : List String :=
  ["today", "yesterday", "tonight", "week", "month", "year", "recent",
   "latest", "last"]

/-- One row returned by the database search (the keys the retriever
reads; `created_at` is a UTC timestamp in epoch seconds). -/
structure SearchResult where
  link_id : Nat
  url : Option String
  title : Option String
  description : Option String
  ai_summary : Option String
  domain : Option String
  created_at : Option Int
  categories : List String
  entities : List String
  deriving DecidableEq, Repr

/-- The database read operations the retriever calls, for one fixed user:
`search q limit` is `database.search_links(user_id, q, limit)` and
`recent limit` is `database.get_recent_links(user_id, limit)`. -/
structure DbOracle where
  search : String → Nat → List SearchResult
  recent : Nat → List SearchResult

/-- Stable insertion into a sorted list: `x` goes after every element that
must stay strictly before it. -/
def pyInsertSorted {α : Type} (lt : α → α → Bool) (x : α) : List α → List α
  | [] => [x]
  | y :: ys => if lt y x then y :: pyInsertSorted lt x ys else x :: y :: ys

/-- Model of Python's stable `list.sort` for the strict key order `lt`
(`lt a b` = "a's key is strictly smaller than b's key"): a stable sort is
extensionally determined by the key order plus stability, and stable
insertion sort realises both. -/
def pySortBy {α : Type} (lt : α → α → Bool) : List α → List α
  | [] => []
  | x :: xs => pyInsertSorted lt x (pySortBy lt xs)

/-- Code-point lexicographic comparison of character lists (Python `str`
comparison). -/
def lexLt : List Char → List Char → Bool
  | _, [] => false
  | [], _ :: _ => true
  | a :: as, b :: bs =>
    if a.toNat < b.toNat then true
    else if b.toNat < a.toNat then false
    else lexLt as bs

/-- The sort key `lambda x: (-len(x), x)` of `_extract_meaningful_words`,
as a strict order: longer words first, ties broken lexicographically. -/
def wordKeyLt (a b : String) : Bool :=
  decide (b.length < a.length) || (a.length == b.length && lexLt a.toList b.toList)

/-- The filter of `_extract_meaningful_words`: not a stop word, not a
temporal token, and at least 3 characters. -/
def meaningfulPred (t : String) : Bool :=
  decide (t ∉ STOP_WORDS) && decide (t ∉ TEMPORAL_TOKENS) && decide (3 ≤ t.length)

/-- Model of `_extract_meaningful_words`. -/
def extract_meaningful_words (query : String) : List String :=
  pySortBy wordKeyLt ((wordTokens (pyLower query)).filter meaningfulPred)

/-- Model of `_clean_query_terms`. -/
def clean_query_terms (query : String) : String :=
  String.intercalate " " ((wordTokens (pyLower query)).filter
    (fun t => decide (t ∉ STOP_WORDS) && decide (t ∉ TEMPORAL_TOKENS)))

/-- Case-insensitive prefix test (the regex runs with `re.IGNORECASE`). -/
def ciStarts : List Char → List Char → Bool
  | _, [] => true
  | [], _ :: _ => false
  | c :: cs, p :: ps => Char.toLower c == Char.toLower p && ciStarts cs ps

/-- Character class `[A-Za-z0-9]` (first captured character). -/
def isEntStart (c : Char) : Bool := c.isAlpha || c.isDigit

/-- Character class `[A-Za-z0-9_\-]` (remaining captured characters). -/
def isEntChar (c : Char) : Bool :=
  c.isAlpha || c.isDigit || c = '_' || c = '-'

/-- After a matched keyword: `\s+` then the captured
`[A-Za-z0-9][A-Za-z0-9_\-]*` token; returns the capture and the remaining
input. -/
def entityTail (s : List Char) : Option (String × List Char) :=
  let ws := s.takeWhile wsp
  if ws.isEmpty then none
  else
    match s.drop ws.length with
    | [] => none
    | c :: rest =>
      if isEntStart c then
        let tl := rest.takeWhile isEntChar
        some (String.mk (c :: tl), rest.drop tl.length)
      else none

/-- The alternation `from|by|with|shared by`, tried in order. -/
def entityKws : List String := ["from", "by", "with", "shared by"]

/-- A regex match attempt at the current position. -/
def entityAt (s : List Char) : Option (String × List Char) :=
  entityKws.findSome? (fun kw =>
    if ciStarts s kw.toList then entityTail (s.drop kw.toList.length) else none)

/-- Left-to-right scan of `re.findall`: report a match and continue after
it, or advance one character.  Each step consumes at least one character,
so an initial fuel of the input length suffices. -/
def findEntitiesAux : Nat → List Char → List String
  | 0, _ => []
  | _, [] => []
  | fuel + 1, c :: t =>
    match entityAt (c :: t) with
    | some (cap, rest) => cap :: findEntitiesAux fuel rest
    | none => findEntitiesAux fuel t

/-- Model of `_extract_entities` (casing of captures preserved). -/
def extract_entities (query : String) : List String :=
  findEntitiesAux query.toList.length query.toList

/-- Seconds per day, for `timedelta(days=1)` on the epoch timeline. -/
def secondsPerDay : Int := 86400

/-- Model of `datetime(now.year, now.month, now.day, tzinfo=utc)`: the
instant floored to UTC midnight. -/
def midnightUtc (now : Int) : Int := secondsPerDay * Int.fdiv now secondsPerDay

/-- Numeric value of a digit run (`int` of the `(\d+)` capture). -/
def digitsVal (ds : List Char) : Nat :=
  ds.foldl (fun n c => 10 * n + (c.toNat - 48)) 0

/-- Match attempt for `last (\d+) <unit>` at the current position. -/
def lastNAt (unitWord : List Char) (s : List Char) : Option Nat :=
  if startsList s "last ".toList then
    let rest := s.drop 5
    let ds := rest.takeWhile Char.isDigit
    if ds.isEmpty then none
    else if startsList (rest.drop ds.length) (' ' :: unitWord) then some (digitsVal ds)
    else none
  else none

/-- Model of `re.search(r"last (\d+) <unit>", q)`: leftmost match. -/
def searchLastN (unitWord : List Char) : List Char → Option Nat
  | [] => none
  | c :: t =>
    match lastNAt unitWord (c :: t) with
    | some n => some n
    | none => searchLastN unitWord t

/-- Model of `_extract_time_filter` on the epoch-seconds timeline. -/
def extract_time_filter (now : Int) (query_lower : String) : Option Int :=
  if strContains query_lower "today" then some (midnightUtc now)
  else if strContains query_lower "yesterday" then some (midnightUtc now - secondsPerDay)
  else if strContains query_lower "last week" then some (now - 7 * secondsPerDay)
  else if strContains query_lower "last month" then some (now - 30 * secondsPerDay)
  else if strContains query_lower "last year" then some (now - 365 * secondsPerDay)
  else
    match searchLastN "days".toList query_lower.toList with
    | some n => some (now - (n : Int) * secondsPerDay)
    | none =>
      match searchLastN "weeks".toList query_lower.toList with
      | some n => some (now - (n : Int) * 7 * secondsPerDay)
      | none => none

/-- Model of the temporal-filter predicate
`link.get("created_at") and link["created_at"] >= window_start`
(datetime objects are always truthy, so the test is: present and at or
after the bound). -/
def createdAtOk (window_start : Int) (link : SearchResult) : Bool :=
  match link.created_at with
  | some t => decide (window_start ≤ t)
  | none => false

/-- Python `len(set(a).intersection(set(b)))`: the number of distinct
elements of `a` occurring in `b`. -/
def setInter (a b : List String) : Nat :=
  ((dedupFirst a).filter (fun x => x ∈ b)).length

/-- Model of the per-result relevance score of `_score_search_results`. -/
def score_result (query : String) (entities : List String) (result : SearchResult) :
    Nat :=
  let query_lower := pyLower query
  let query_words := wordTokens query_lower
  let title := pyLower (pyOrEmpty result.title)
  let s_title := if title ≠ "" then setInter query_words (wordTokens title) * 3 else 0
  let summary := pyLower (pyOrEmpty (pyOr result.ai_summary result.description))
  let s_summary := if summary ≠ "" then setInter query_words (wordTokens summary) * 2 else 0
  let category_text := pyLower (String.intercalate " " result.categories)
  let s_cat := if category_text ≠ "" then setInter query_words (wordTokens category_text) * 2 else 0
  let s_ent :=
    if entities ≠ [] then
      (entities.filter (fun e =>
        strContains title (pyLower e) || strContains summary (pyLower e))).length * 5
    else 0
  let s_phrase := if strContains title query_lower || strContains summary query_lower then 10 else 0
  s_title + s_summary + s_cat + s_ent + s_phrase

/-- The scorer's score as the specification words it: +3 per query word in
the title's word set, +2 per query word in the summary/description word
set, +2 per query word in the joined category text's word set, +5 per
extracted entity token occurring as a substring of title or summary, and
+10 when the full lowercased query occurs verbatim in title or summary. -/
def score_claim (query : String) (entities : List String) (result : SearchResult) :
    Nat :=
  let query_lower := pyLower query
  let query_words := wordTokens query_lower
  let title := pyLower (pyOrEmpty result.title)
  let summary := pyLower (pyOrEmpty (pyOr result.ai_summary result.description))
  let category_text := pyLower (String.intercalate " " result.categories)
  3 * setInter query_words (wordTokens title)
    + 2 * setInter query_words (wordTokens summary)
    + 2 * setInter query_words (wordTokens category_text)
    + 5 * (entities.filter (fun e =>
        strContains title (pyLower e) || strContains summary (pyLower e))).length
    + (if strContains title query_lower || strContains summary query_lower then 10 else 0)

/-- The comparison of `scored_results.sort(key=lambda x: -x[0])`: ascending
in `-score`, i.e. an element stays strictly before another iff its score is
strictly larger. -/
def scoredLt (a b : Nat × SearchResult) : Bool := decide (b.1 < a.1)

/-- Model of `_score_search_results`. -/
def score_search_results (results : List SearchResult) (query : String)
    (entities : List String) : List SearchResult :=
  if results = [] then []
  else
    let scored := results.map (fun r => (score_result query entities r, r))
    (pySortBy scoredLt scored).map Prod.snd

/-- The URLs already present in the accumulated result list
(`{r.get('url') for r in search_results}`). -/
def urlsOf (l : List SearchResult) : List (Option String) := l.map (fun r => r.url)

/-- Extend the accumulated results with the rows whose URL is not already
present. -/
def addNew (acc new : List SearchResult) : List SearchResult :=
  acc ++ new.filter (fun r => decide (r.url ∉ urlsOf acc))

/-- The second pass's search string, when the pass runs at all: cleaned
terms (plus the joined entities when any) — only if cleaning changed the
query. -/
def pass2_terms (query : String) (entities : List String) : Option String :=
  let cleaned_terms := clean_query_terms query
  if cleaned_terms ≠ "" ∧ cleaned_terms ≠ query then
    some (if entities ≠ [] then
            pyStrip (cleaned_terms ++ " " ++ String.intercalate " " entities)
          else cleaned_terms)
  else none

/-- The loop body of the third pass: words of length ≥ 4 trigger a batch-5
single-word search whose URL-new rows are appended. -/
def pass3_body (db : DbOracle) (acc : List SearchResult) (word : String) :
    List SearchResult :=
  if 4 ≤ word.length then addNew acc (db.search word 5) else acc

/-- Model of `find_links_by_query`. -/
def find_links_by_query (db : DbOracle) (now : Int) (query0 : String) (limit : Nat) :
    List SearchResult :=
  let query := pyStrip query0
  if query = "" then []
  else
    let query_lower := pyLower query
    if strContains query_lower "recent" || strContains query_lower "latest" then
      db.recent limit
    else
      let window_start := extract_time_filter now query_lower
      let entities := extract_entities query
      let sr1 := db.search query (limit * 2)
      let sr2 :=
        match pass2_terms query entities with
        | some search_terms => addNew sr1 (db.search search_terms (limit * 2))
        | none => sr1
      let meaningful_words := extract_meaningful_words query
      let sr3 :=
        if meaningful_words ≠ [] ∧ 2 ≤ meaningful_words.length then
          (meaningful_words.take 3).foldl (pass3_body db) sr2
        else sr2
      let filtered :=
        match window_start with
        | some ws => sr3.filter (createdAtOk ws)
        | none => sr3
      (score_search_results filtered query entities).take limit

/-- The words for which the third pass actually issues a single-word search:
nothing when there are fewer than two meaningful words, otherwise the words
of length ≥ 4 among the top 3 meaningful words. -/
def pass3_searched_words (query : String) : List String :=
  if extract_meaningful_words query ≠ [] ∧ 2 ≤ (extract_meaningful_words query).length then
    ((extract_meaningful_words query).take 3).filter (fun w => decide (4 ≤ w.length))
  else []

/-- The third pass's searched words as the claim describes them: the top 3
meaningful words, where meaningful means length ≥ 4 with stop-words and
temporal tokens excluded, sorted longest-first. -/
def claim_pass3_words (query : String) : List String :=
  (pySortBy wordKeyLt ((wordTokens (pyLower query)).filter
    (fun t => decide (t ∉ STOP_WORDS) && decide (t ∉ TEMPORAL_TOKENS) &&
      decide (4 ≤ t.length)))).take 3

end Retriever

/-! ## Concrete fixtures

Closed oracle instantiations used to evaluate the theorems below at concrete
inputs. -/

namespace Fix

open Silo

/-- A soup with no title/meta/link tags. -/
def soup0 : Pipeline.Soup := ⟨none, fun _ => none, none, none, none⟩

/-- Parse dependencies whose raw text is always `"hello world"`. -/
def parseHello : Pipeline.ParseDeps := ⟨fun _ => soup0, fun _ => "hello world", fun _ h => h⟩

/-- Renderer disabled. -/
def cfgOff : Pipeline.PipelineConfig := ⟨false, none, 40⟩

/-- Renderer enabled and configured, minimum 40 words. -/
def cfgOn : Pipeline.PipelineConfig := ⟨true, some "http://r", 40⟩

/-- A fetched page. -/
def page0 : Pipeline.Page := ⟨"<html>", "text/html", "https://e/x"⟩

/-- Pipeline dependencies with the renderer disabled. -/
def depsOff : Pipeline.PipelineDeps :=
  ⟨cfgOff, parseHello, fun _ => some page0, fun _ => none, fun _ _ => "", fun _ _ => none⟩

/-- Pipeline dependencies with the renderer enabled (two-word page text is
below the 40-word minimum and there is no description, so escalation fires). -/
def depsOn : Pipeline.PipelineDeps :=
  ⟨cfgOn, parseHello, fun _ => some page0, fun _ => none, fun _ _ => "", fun _ _ => none⟩

/-- The `process_url` output for `depsOff` on `page0`. -/
def resOff : Pipeline.ProcessResult :=
  ⟨"<html>", "https://e/x",
    ⟨none, none, none, none, none, some "e", none, some "text/html",
      some "https://e/x", some 2, some 1, none⟩,
    "hello world", none, "direct", none⟩

/-- A saved link about Rust ownership. -/
def rRust : Retriever.SearchResult :=
  ⟨1, some "u1", some "Intro to Rust Ownership", some "ownership in rust",
    none, none, some 500000, ["rust", "programming"], []⟩

/-- A saved link about pasta. -/
def rPasta : Retriever.SearchResult :=
  ⟨2, some "u2", some "Cooking Pasta", none, some "pasta tips", none,
    some 500000, [], []⟩

/-- A link saved before the temporal window. -/
def rOld : Retriever.SearchResult :=
  ⟨3, some "u3", some "old pasta", none, none, none, some 100, [], []⟩

/-- A link with no creation timestamp. -/
def rNoDate : Retriever.SearchResult :=
  ⟨4, some "u4", some "undated pasta", none, none, none, none, [], []⟩

/-- A database oracle answering the two-word query searches. -/
def dbRust : Retriever.DbOracle :=
  ⟨fun q n => if q = "rust ownership" ∧ n = 10 then [rRust, rPasta] else [],
    fun _ => [rRust]⟩

/-- A database oracle that only answers the batch-5 single-word search
`"ownership"` — which the third pass never issues for `"the ownership"`. -/
def dbGate : Retriever.DbOracle :=
  ⟨fun q n => if q = "ownership" ∧ n = 5 then [rRust] else [], fun _ => []⟩

/-- A database oracle returning dated and undated pasta links. -/
def dbPasta : Retriever.DbOracle :=
  ⟨fun _ _ => [rPasta, rOld, rNoDate], fun _ => []⟩

end Fix

/-! ## Helper lemmas -/

namespace Sql

theorem keyMatch_mergeRow (u : Int) (url : String) (ti de dm : Option String)
    (r : LinkRow) : keyMatch u url (mergeRow ti de dm r) = keyMatch u url r := rfl

theorem rowKey_mergeRow (ti de dm : Option String) (r : LinkRow) :
    rowKey (mergeRow ti de dm r) = rowKey r := rfl

theorem find?_map_mergeRow (u : Int) (url : String) (ti de dm : Option String) :
    ∀ l : List LinkRow,
      (l.map (fun r => if keyMatch u url r then mergeRow ti de dm r else r)).find?
          (keyMatch u url) =
        (l.find? (keyMatch u url)).map (mergeRow ti de dm) := by
  intro l
  induction l with
  | nil => rfl
  | cons a l ih =>
    by_cases ha : keyMatch u url a = true
    · have hma : keyMatch u url (mergeRow ti de dm a) = true := by
        rw [keyMatch_mergeRow]; exact ha
      rw [List.map_cons, if_pos ha, List.find?_cons_of_pos _ hma,
        List.find?_cons_of_pos _ ha]
      rfl
    · have ha' : ¬ (keyMatch u url a = true) := ha
      rw [List.map_cons, if_neg ha, List.find?_cons_of_neg _ ha',
        List.find?_cons_of_neg _ ha', ih]

theorem upsert_find (t : LinksTable) (u : Int) (url : String)
    (ti de dm : Option String) :
    findLink (add_link_upsert t u url ti de dm) u url =
      match findLink t u url with
      | some r => some (mergeRow ti de dm r)
      | none => some ⟨t.next_id, u, url, ti, de, dm⟩ := by
  unfold findLink add_link_upsert
  by_cases h : t.rows.any (keyMatch u url) = true
  · obtain ⟨r', hr'⟩ :=
      Option.isSome_iff_exists.mp (List.find?_isSome.mpr (List.any_eq_true.mp h))
    rw [if_pos h]
    show (t.rows.map _).find? (keyMatch u url) = _
    rw [find?_map_mergeRow, hr']
    rfl
  · have hnone : List.find? (keyMatch u url) t.rows = none := by
      rw [List.find?_eq_none]
      intro x hx hpx
      exact h (List.any_eq_true.mpr ⟨x, hx, hpx⟩)
    rw [if_neg h]
    show List.find? (keyMatch u url) (t.rows ++ [_]) = _
    rw [List.find?_append, hnone, Option.none_or]
    have hnew : keyMatch u url (⟨t.next_id, u, url, ti, de, dm⟩ : LinkRow) = true := by
      simp [keyMatch]
    rw [List.find?_cons_of_pos _ hnew]

theorem upsert_unique (t : LinksTable) (u : Int) (url : String)
    (ti de dm : Option String) (hu : UniqueKeys t) :
    UniqueKeys (add_link_upsert t u url ti de dm) := by
  by_cases h : t.rows.any (keyMatch u url) = true
  · unfold UniqueKeys add_link_upsert
    rw [if_pos h]
    have : (t.rows.map (fun r =>
        if keyMatch u url r then mergeRow ti de dm r else r)).map rowKey =
        t.rows.map rowKey := by
      rw [List.map_map]
      apply List.map_congr_left
      intro a _
      by_cases ha : keyMatch u url a = true <;> simp [ha, rowKey_mergeRow]
    simpa [this] using hu
  · unfold UniqueKeys add_link_upsert
    rw [if_neg h]
    have hnotin : (u, url) ∉ t.rows.map rowKey := by
      intro hmem
      obtain ⟨r, hr, hk⟩ := List.mem_map.mp hmem
      apply h
      refine List.any_eq_true.mpr ⟨r, hr, ?_⟩
      simp only [rowKey, Prod.mk.injEq] at hk
      simp [keyMatch, hk.1, hk.2]
    simp only [List.map_append, List.map_cons, List.map_nil, List.nodup_append]
    refine ⟨hu, by simp, ?_⟩
    intro k hk hk'
    simp only [List.mem_singleton] at hk'
    subst hk'
    exact hnotin hk

end Sql

/-! ## Claim C1 -/

/-- Claim C1 counterexample: a database error (`psycopg2.Error`) raised while
executing `add_link`'s statement does not propagate to the caller — the
function returns `None` normally and the surrounding `_cursor(commit=True)`
block then commits, contradicting "rolls back and re-raises". -/
theorem add_link_swallows_pg_error :
    Db.add_link (Except.error (Db.PyExc.pgError "duplicate key value")) =
      (Except.ok none, Db.TxEnd.committed) := rfl

/-- Claim C1 (amended): every listed mutating operation other than
`add_link` runs inside `_cursor(commit=True)`, which commits on success and
on any exception rolls back and re-raises; `add_link` however catches
`psycopg2.Error` inside the transaction body and returns `None` instead of
re-raising (after which the context manager commits), so only non-database
exceptions propagate from `add_link`. -/
theorem mutating_ops_transaction_amended
    (exec : Except Db.PyExc Unit) (execL : Except Db.PyExc (Option Nat))
    (e : Db.PyExc) (a : Unit)
    (fields : List (String × Option String)) (md : List (String × String))
    (cats : List String) (ents : List (Option String × Option String))
    (snap : String) (emb : List Int) :
    ((exec = Except.ok a → Db.cursorRun true exec = (Except.ok a, Db.TxEnd.committed))
      ∧ (exec = Except.error e →
          Db.cursorRun true exec = (Except.error e, Db.TxEnd.rolledBack)))
    ∧ ((exec = Except.error e → fields.filter (fun f => f.2.isSome) ≠ [] →
          Db.update_link_details fields exec = (Except.error e, some Db.TxEnd.rolledBack))
      ∧ (exec = Except.error e → md ≠ [] →
          Db.add_link_metadata md exec = (Except.error e, some Db.TxEnd.rolledBack))
      ∧ (exec = Except.error e → cats ≠ [] →
          Db.add_link_categories cats exec = (Except.error e, some Db.TxEnd.rolledBack))
      ∧ (exec = Except.error e → ents ≠ [] →
          Db.add_link_entities ents exec = (Except.error e, some Db.TxEnd.rolledBack))
      ∧ (exec = Except.error e →
          Db.record_link_source exec = (Except.error e, Db.TxEnd.rolledBack))
      ∧ (exec = Except.error e → snap ≠ "" →
          Db.add_link_snapshot snap exec = (Except.error e, some Db.TxEnd.rolledBack))
      ∧ (exec = Except.error e → emb ≠ [] →
          Db.store_link_embedding emb exec = (Except.error e, some Db.TxEnd.rolledBack)))
    ∧ ((e.isPgError = true →
          Db.add_link (Except.error e) = (Except.ok none, Db.TxEnd.committed))
      ∧ (e.isPgError = false →
          Db.add_link (Except.error e) = (Except.error e, Db.TxEnd.rolledBack))
      ∧ (execL = Except.ok (some 1) →
          Db.add_link execL = (Except.ok (some 1), Db.TxEnd.committed))) := by
  refine ⟨⟨?_, ?_⟩, ⟨?_, ?_, ?_, ?_, ?_, ?_, ?_⟩, ⟨?_, ?_, ?_⟩⟩ <;>
    intro h <;>
    first
      | (intro hne; subst h;
         simp [Db.update_link_details, Db.add_link_metadata, Db.add_link_categories,
           Db.add_link_entities, Db.add_link_snapshot, Db.store_link_embedding,
           Db.record_link_source, Db.cursorRun, hne])
      | (subst h;
         simp [Db.record_link_source, Db.cursorRun, Db.add_link])
      | (simp [Db.add_link, Db.cursorRun, h])

/-- Claim C1 witness: the amended theorem applied at concrete inputs. -/
theorem mutating_ops_transaction_amended_witness :
    Db.record_link_source (Except.error (Db.PyExc.exc "boom")) =
      (Except.error (Db.PyExc.exc "boom"), Db.TxEnd.rolledBack) :=
  (mutating_ops_transaction_amended (Except.error (Db.PyExc.exc "boom"))
    (Except.ok (some 1)) (Db.PyExc.exc "boom") () [] [] [] [] "s" []).2.1.2.2.2.2.1 rfl

/-! ## Claim C2 -/

/-- Claim C2: upserting the same (user, url) twice with differing non-null
titles leaves the second title (last-write-wins for non-null fields);
upserting a null title after a non-null one leaves the title unchanged; the
same COALESCE rule merges description and domain; and the (user, url) key
stays unique. -/
theorem add_link_upsert_coalesce (t : Sql.LinksTable) (u : Int) (url : String)
    (t1 t2 : String) (d1 d2 dm1 dm2 ti de dm : Option String) :
    (∃ r, Sql.findLink
        (Sql.add_link_upsert (Sql.add_link_upsert t u url (some t1) d1 dm1)
          u url (some t2) d2 dm2) u url = some r ∧ r.title = some t2)
    ∧ (∃ r, Sql.findLink
        (Sql.add_link_upsert (Sql.add_link_upsert t u url (some t1) d1 dm1)
          u url none d2 dm2) u url = some r ∧ r.title = some t1)
    ∧ (∀ r0, Sql.findLink t u url = some r0 →
        Sql.findLink (Sql.add_link_upsert t u url ti de dm) u url =
          some { r0 with
                 title := Sql.coalesce ti r0.title
                 description := Sql.coalesce de r0.description
                 domain := Sql.coalesce dm r0.domain })
    ∧ (Sql.UniqueKeys t → Sql.UniqueKeys (Sql.add_link_upsert t u url ti de dm)) := by
  refine ⟨?_, ?_, ?_, Sql.upsert_unique t u url ti de dm⟩
  · rw [Sql.upsert_find, Sql.upsert_find]
    cases h : Sql.findLink t u url <;>
      exact ⟨_, rfl, rfl⟩
  · rw [Sql.upsert_find, Sql.upsert_find]
    cases h : Sql.findLink t u url <;>
      exact ⟨_, rfl, rfl⟩
  · intro r0 h0
    rw [Sql.upsert_find, h0]
    rfl

/-- Claim C2 witness: the theorem applied to a concrete one-row table. -/
theorem add_link_upsert_coalesce_witness :
    (∃ r, Sql.findLink
        (Sql.add_link_upsert
          (Sql.add_link_upsert ⟨[], 1⟩ 7 "https://x" (some "first") none none)
          7 "https://x" (some "second") none (some "x")) 7 "https://x" = some r ∧
        r.title = some "second")
    ∧ Sql.findLink (⟨[⟨1, 7, "https://x", some "old", some "d", none⟩], 2⟩ :
        Sql.LinksTable) 7 "https://x" = some ⟨1, 7, "https://x", some "old", some "d", none⟩
    ∧ Sql.findLink
        (Sql.add_link_upsert ⟨[⟨1, 7, "https://x", some "old", some "d", none⟩], 2⟩
          7 "https://x" none none (some "x.com")) 7 "https://x" =
        some ⟨1, 7, "https://x", some "old", some "d", some "x.com"⟩ := by
  refine ⟨(add_link_upsert_coalesce ⟨[], 1⟩ 7 "https://x" "first" "second"
      none none none (some "x") none none none).1, by decide, ?_⟩
  have h := (add_link_upsert_coalesce
      (⟨[⟨1, 7, "https://x", some "old", some "d", none⟩], 2⟩ : Sql.LinksTable)
      7 "https://x" "a" "b" none none none none none none (some "x.com")).2.2.1
      ⟨1, 7, "https://x", some "old", some "d", none⟩ (by decide)
  simpa using h

/-! ## Claim C3 -/

theorem readTime_eq_ceil (wc : Nat) :
    Pipeline.readTimeOf wc = if wc = 0 then none else some ⌈(wc : ℚ) / 200⌉₊ := by
  unfold Pipeline.readTimeOf
  rcases Nat.eq_zero_or_pos wc with h | h
  · simp [h]
  · have hne : wc ≠ 0 := by omega
    rw [if_neg hne, if_neg hne]
    congr 1
    obtain ⟨p, hp⟩ : ∃ p, (wc + 199) / 200 = p + 1 := ⟨(wc + 199) / 200 - 1, by omega⟩
    rw [hp]
    symm
    rw [Nat.ceil_eq_iff (by omega)]
    constructor
    · simp only [Nat.add_sub_cancel]
      rw [lt_div_iff₀ (by norm_num : (0:ℚ) < 200)]
      exact_mod_cast show p * 200 < wc by omega
    · rw [div_le_iff₀ (by norm_num : (0:ℚ) < 200)]
      exact_mod_cast show wc ≤ (p + 1) * 200 by omega

/-- Claim C3: the extractor's metadata satisfies
`read_time = ceil(word_count / 200)` when the word count is positive and
`read_time = null` when it is zero — both on the direct extraction result
and on the metadata returned by `process_url`, whose counts are recomputed
from the final text after any render/OCR escalation. -/
theorem read_time_invariant :
    (∀ (d : Pipeline.ParseDeps) (html : String) (url ct : Option String) (wc : Nat),
        (Pipeline.extract_metadata d html url ct).word_count = some wc →
        (Pipeline.extract_metadata d html url ct).read_time =
          if wc = 0 then none else some ⌈(wc : ℚ) / 200⌉₊)
    ∧ (∀ (d : Pipeline.PipelineDeps) (url : String) (res : Pipeline.ProcessResult),
        Pipeline.process_url d url = some res →
        ∃ wc, res.metadata.word_count = some wc ∧
          res.metadata.read_time = if wc = 0 then none else some ⌈(wc : ℚ) / 200⌉₊) := by
  constructor
  · intro d html url ct wc h
    unfold Pipeline.extract_metadata at h ⊢
    by_cases hh : html = ""
    · simp [hh] at h
    · simp only [if_neg hh] at h ⊢
      have hwc : (Silo.pySplit (Pipeline.extract_text_content d html)).length = wc := by
        simpa using h
      rw [← hwc]
      exact readTime_eq_ceil _
  · intro d url res h
    unfold Pipeline.process_url at h
    cases hf : d.fetch url with
    | none => rw [hf] at h; exact absurd h (by simp)
    | some page =>
      rw [hf] at h
      simp only [Option.some.injEq] at h
      subst h
      exact ⟨_, rfl, readTime_eq_ceil _⟩

/-- Claim C3 witness: the theorem applied to a concrete pipeline run whose
final text is `"hello world"` (2 words, read time `ceil(2/200) = 1`). -/
theorem read_time_invariant_witness :
    ∃ wc, Fix.resOff.metadata.word_count = some wc ∧
      Fix.resOff.metadata.read_time = if wc = 0 then none else some ⌈(wc : ℚ) / 200⌉₊ :=
  read_time_invariant.2 Fix.depsOff "https://e/x" Fix.resOff (by decide)

/-! ## Claim C4 -/

/-- Claim C4: in one `process_url` run the renderer is invoked exactly once
iff rendering is enabled and configured and (the tier-1 text is empty, or
its word count is below the configured minimum and the tier-1 metadata has
no description); otherwise it is never invoked.  The per-run invocation
count is `renderer_calls`, whose guard is proved equal to the
specification's guard. -/
theorem renderer_escalation_guard :
    (∀ (cfg : Pipeline.PipelineConfig) (t : String) (m : Pipeline.Metadata),
        Pipeline.should_retry_with_renderer cfg t m =
          Pipeline.render_escalation_claim cfg t m)
    ∧ (∀ (d : Pipeline.PipelineDeps) (url : String) (page : Pipeline.Page),
        d.fetch url = some page →
        Pipeline.renderer_calls d url =
          (if Pipeline.render_escalation_claim d.cfg
              (Silo.pyOrEmpty (Pipeline.extract_metadata d.parse page.html
                (some page.final_url) (some page.content_type)).text_content)
              { Pipeline.extract_metadata d.parse page.html
                  (some page.final_url) (some page.content_type) with
                text_content := none } = true then 1 else 0))
    ∧ (∀ (d : Pipeline.PipelineDeps) (url : String),
        d.fetch url = none → Pipeline.renderer_calls d url = 0) := by
  have hguard : ∀ (cfg : Pipeline.PipelineConfig) (t : String) (m : Pipeline.Metadata),
      Pipeline.should_retry_with_renderer cfg t m =
        Pipeline.render_escalation_claim cfg t m := by
    intro cfg t m
    unfold Pipeline.should_retry_with_renderer Pipeline.render_escalation_claim
    cases hE : cfg.ENABLE_RENDERER <;>
      cases hU : Silo.optStrFalsy cfg.RENDERER_URL <;>
        by_cases ht : t = "" <;>
          by_cases hwc : cfg.RENDERER_MIN_WORDS ≤ (Silo.pySplit t).length <;>
            simp [hE, hU, ht, hwc]
  refine ⟨hguard, ?_, ?_⟩
  · intro d url page hf
    unfold Pipeline.renderer_calls
    rw [hf]
    simp only [hguard]
  · intro d url hf
    unfold Pipeline.renderer_calls
    rw [hf]

/-- Claim C4 witness: with rendering enabled, a two-word page below the
40-word minimum and no description, the theorem yields exactly one renderer
invocation. -/
theorem renderer_escalation_guard_witness :
    Pipeline.renderer_calls Fix.depsOn "https://e/x" = 1 := by
  have h := renderer_escalation_guard.2.1 Fix.depsOn "https://e/x" Fix.page0 (by rfl)
  rw [h]
  decide

/-! ## Stable-sort lemmas for the retriever -/

namespace Retriever

theorem pyInsertSorted_perm {α : Type} (lt : α → α → Bool) (x : α) :
    ∀ l : List α, (pyInsertSorted lt x l).Perm (x :: l) := by
  intro l
  induction l with
  | nil => exact List.Perm.refl _
  | cons y ys ih =>
    by_cases h : lt y x = true
    · simp only [pyInsertSorted, if_pos h]
      exact (ih.cons y).trans (List.Perm.swap x y ys)
    · simp only [pyInsertSorted, if_neg h]
      exact List.Perm.refl _

theorem pySortBy_perm {α : Type} (lt : α → α → Bool) :
    ∀ l : List α, (pySortBy lt l).Perm l := by
  intro l
  induction l with
  | nil => exact List.Perm.refl _
  | cons x xs ih =>
    exact (pyInsertSorted_perm lt x (pySortBy lt xs)).trans (ih.cons x)

theorem pairwise_pyInsertSorted {α : Type} (lt : α → α → Bool)
    (hasym : ∀ a b, lt a b = true → lt b a = false)
    (hneg : ∀ a b c, lt b a = false → lt c b = false → lt c a = false)
    (x : α) :
    ∀ l : List α, l.Pairwise (fun a b => lt b a = false) →
      (pyInsertSorted lt x l).Pairwise (fun a b => lt b a = false) := by
  intro l
  induction l with
  | nil => intro _; simp [pyInsertSorted]
  | cons y ys ih =>
    intro hl
    rw [List.pairwise_cons] at hl
    obtain ⟨hy, hys⟩ := hl
    by_cases h : lt y x = true
    · simp only [pyInsertSorted, if_pos h]
      rw [List.pairwise_cons]
      refine ⟨?_, ih hys⟩
      intro z hz
      have hz2 : z ∈ x :: ys := (pyInsertSorted_perm lt x ys).mem_iff.mp hz
      rcases List.mem_cons.mp hz2 with hz' | hz'
      · rw [hz']
        exact hasym _ _ h
      · exact hy z hz'
    · have h' : lt y x = false := by simpa using h
      simp only [pyInsertSorted, if_neg h]
      rw [List.pairwise_cons]
      refine ⟨?_, List.pairwise_cons.mpr ⟨hy, hys⟩⟩
      intro z hz
      rcases List.mem_cons.mp hz with hz' | hz'
      · rw [hz']; exact h'
      · exact hneg x y z h' (hy z hz')

theorem pairwise_pySortBy {α : Type} (lt : α → α → Bool)
    (hasym : ∀ a b, lt a b = true → lt b a = false)
    (hneg : ∀ a b c, lt b a = false → lt c b = false → lt c a = false) :
    ∀ l : List α, (pySortBy lt l).Pairwise (fun a b => lt b a = false) := by
  intro l
  induction l with
  | nil => simp [pySortBy]
  | cons x xs ih => exact pairwise_pyInsertSorted lt hasym hneg x _ ih

theorem filter_pyInsertSorted_key {α κ : Type} [DecidableEq κ] (key : α → κ)
    (lt : α → α → Bool) (x : α) (s : κ)
    (hx : ∀ y, lt y x = true → key y ≠ key x) :
    ∀ l : List α,
      (pyInsertSorted lt x l).filter (fun a => decide (key a = s)) =
        if key x = s then x :: l.filter (fun a => decide (key a = s))
        else l.filter (fun a => decide (key a = s)) := by
  intro l
  induction l with
  | nil =>
    by_cases hs : key x = s <;> simp [pyInsertSorted, hs]
  | cons y ys ih =>
    by_cases h : lt y x = true
    · simp only [pyInsertSorted, if_pos h]
      by_cases hs : key x = s
      · have hy : ¬ (key y = s) := by
          intro hys
          exact hx y h (hys.trans hs.symm)
        rw [if_pos hs]
        rw [List.filter_cons, if_neg (by simpa using hy),
          List.filter_cons, if_neg (by simpa using hy), ih, if_pos hs]
      · rw [if_neg hs]
        rw [List.filter_cons, List.filter_cons, ih, if_neg hs]
    · simp only [pyInsertSorted, if_neg h]
      by_cases hs : key x = s
      · rw [if_pos hs, List.filter_cons, if_pos (by simpa using hs)]
      · rw [if_neg hs, List.filter_cons, if_neg (by simpa using hs)]

theorem filter_pySortBy_key {α κ : Type} [DecidableEq κ] (key : α → κ)
    (lt : α → α → Bool) (hk : ∀ a b, lt a b = true → key a ≠ key b) (s : κ) :
    ∀ l : List α,
      (pySortBy lt l).filter (fun a => decide (key a = s)) =
        l.filter (fun a => decide (key a = s)) := by
  intro l
  induction l with
  | nil => rfl
  | cons x xs ih =>
    show (pyInsertSorted lt x (pySortBy lt xs)).filter _ = _
    rw [filter_pyInsertSorted_key key lt x s (fun y hy => hk y x hy), ih]
    by_cases hs : key x = s
    · rw [if_pos hs, List.filter_cons, if_pos (by simpa using hs)]
    · rw [if_neg hs, List.filter_cons, if_neg (by simpa using hs)]

theorem pyInsertSorted_eq_cons {α : Type} (lt : α → α → Bool) (x : α) :
    ∀ l : List α, (∀ z ∈ l, lt z x = false) → pyInsertSorted lt x l = x :: l := by
  intro l hl
  cases l with
  | nil => rfl
  | cons z zs =>
    have := hl z (List.mem_cons_self z zs)
    simp [pyInsertSorted, this]

theorem filter_pyInsertSorted_neg {α : Type} (lt : α → α → Bool) (p : α → Bool)
    (x : α) (hp : p x = false) :
    ∀ l : List α, (pyInsertSorted lt x l).filter p = l.filter p := by
  intro l
  induction l with
  | nil => simp [pyInsertSorted, hp]
  | cons y ys ih =>
    by_cases h : lt y x = true
    · simp only [pyInsertSorted, if_pos h]
      rw [List.filter_cons, List.filter_cons, ih]
    · simp only [pyInsertSorted, if_neg h]
      rw [List.filter_cons, if_neg (by simp [hp]), List.filter_cons]

theorem filter_pyInsertSorted_pos {α : Type} (lt : α → α → Bool)
    (hneg : ∀ a b c, lt b a = false → lt c b = false → lt c a = false)
    (p : α → Bool) (x : α) (hp : p x = true) :
    ∀ l : List α, l.Pairwise (fun a b => lt b a = false) →
      (pyInsertSorted lt x l).filter p = pyInsertSorted lt x (l.filter p) := by
  intro l
  induction l with
  | nil => intro _; simp [pyInsertSorted, hp]
  | cons y ys ih =>
    intro hl
    rw [List.pairwise_cons] at hl
    obtain ⟨hy, hys⟩ := hl
    by_cases h : lt y x = true
    · simp only [pyInsertSorted, if_pos h]
      by_cases hpy : p y = true
      · rw [List.filter_cons, if_pos (by simpa using hpy), List.filter_cons,
          if_pos (by simpa using hpy), ih hys]
        simp [pyInsertSorted, h]
      · have hpy' : p y = false := by simpa using hpy
        rw [List.filter_cons, if_neg (by simp [hpy']), List.filter_cons,
          if_neg (by simp [hpy']), ih hys]
    · have h' : lt y x = false := by simpa using h
      simp only [pyInsertSorted, if_neg h]
      rw [List.filter_cons, if_pos (by simpa using hp)]
      have hall : ∀ z ∈ (y :: ys).filter p, lt z x = false := by
        intro z hz
        rcases List.mem_cons.mp (List.mem_of_mem_filter hz) with hz' | hz'
        · rw [hz']; exact h'
        · exact hneg x y z h' (hy z hz')
      rw [pyInsertSorted_eq_cons lt x _ hall]

theorem filter_pySortBy_comm {α : Type} (lt : α → α → Bool)
    (hasym : ∀ a b, lt a b = true → lt b a = false)
    (hneg : ∀ a b c, lt b a = false → lt c b = false → lt c a = false)
    (p : α → Bool) :
    ∀ l : List α, (pySortBy lt l).filter p = pySortBy lt (l.filter p) := by
  intro l
  induction l with
  | nil => rfl
  | cons x xs ih =>
    show (pyInsertSorted lt x (pySortBy lt xs)).filter p = _
    by_cases hp : p x = true
    · rw [filter_pyInsertSorted_pos lt hneg p x hp _ (pairwise_pySortBy lt hasym hneg xs),
        ih, List.filter_cons, if_pos (by simpa using hp)]
      rfl
    · have hp' : p x = false := by simpa using hp
      rw [filter_pyInsertSorted_neg lt p x hp', ih, List.filter_cons,
        if_neg (by simp [hp'])]

theorem take_filter_of_antitone {α : Type} (p : α → Bool) :
    ∀ (l : List α), l.Pairwise (fun a b => p b = true → p a = true) →
      ∀ n, (l.take n).filter p = (l.filter p).take n := by
  intro l
  induction l with
  | nil => intro _ n; simp
  | cons x xs ih =>
    intro hl n
    rw [List.pairwise_cons] at hl
    obtain ⟨hx, hxs⟩ := hl
    cases n with
    | zero => simp
    | succ n =>
      by_cases hp : p x = true
      · rw [List.take_succ_cons, List.filter_cons, if_pos (by simpa using hp),
          List.filter_cons, if_pos (by simpa using hp), List.take_succ_cons,
          ih hxs n]
      · have hp' : p x = false := by simpa using hp
        have hnone : ∀ b ∈ xs, p b = false := by
          intro b hb
          by_contra hb'
          exact hp (hx b hb (by simpa using hb'))
        have hfilter : xs.filter p = [] := List.filter_eq_nil_iff.mpr (by
          intro b hb
          simp [hnone b hb])
        have hfilter' : (xs.take n).filter p = [] := List.filter_eq_nil_iff.mpr (by
          intro b hb
          simp [hnone b (List.take_subset n xs hb)])
        rw [List.take_succ_cons, List.filter_cons, if_neg (by simp [hp']),
          List.filter_cons, if_neg (by simp [hp']), hfilter, hfilter']
        simp

theorem filter_map_swap {α β : Type} (f : α → β) (p : β → Bool) :
    ∀ l : List α, (l.map f).filter p = (l.filter (fun a => p (f a))).map f := by
  intro l
  induction l with
  | nil => rfl
  | cons x xs ih =>
    by_cases hp : p (f x) = true
    · rw [List.map_cons, List.filter_cons, if_pos (by simpa using hp),
        List.filter_cons, if_pos (by simpa using hp), List.map_cons, ih]
    · have hp' : p (f x) = false := by simpa using hp
      rw [List.map_cons, List.filter_cons, if_neg (by simp [hp']),
        List.filter_cons, if_neg (by simp [hp']), ih]

theorem scoredLt_asymm (a b : Nat × SearchResult) :
    scoredLt a b = true → scoredLt b a = false := by
  simp only [scoredLt, decide_eq_true_eq, decide_eq_false_iff_not]
  omega

theorem scoredLt_negtrans (a b c : Nat × SearchResult) :
    scoredLt b a = false → scoredLt c b = false → scoredLt c a = false := by
  simp only [scoredLt, decide_eq_false_iff_not]
  omega

theorem scoredLt_key_ne (a b : Nat × SearchResult) :
    scoredLt a b = true → a.1 ≠ b.1 := by
  simp only [scoredLt, decide_eq_true_eq]
  omega

theorem score_search_results_eq (rs : List SearchResult) (q : String)
    (es : List String) :
    score_search_results rs q es =
      (pySortBy scoredLt (rs.map (fun r => (score_result q es r, r)))).map
        Prod.snd := by
  by_cases h : rs = [] <;> simp [score_search_results, h, pySortBy]

theorem score_search_results_perm (rs : List SearchResult) (q : String)
    (es : List String) : (score_search_results rs q es).Perm rs := by
  rw [score_search_results_eq]
  have h1 := (pySortBy_perm scoredLt (rs.map (fun r => (score_result q es r, r)))).map
    Prod.snd
  refine h1.trans ?_
  rw [List.map_map,
    show (Prod.snd ∘ fun r : SearchResult => (score_result q es r, r)) = id from rfl,
    List.map_id]

theorem mem_sorted_scored (rs : List SearchResult) (q : String) (es : List String) :
    ∀ p ∈ pySortBy scoredLt (rs.map (fun r => (score_result q es r, r))),
      p.1 = score_result q es p.2 := by
  intro p hp
  have hp' := (pySortBy_perm scoredLt _).mem_iff.mp hp
  obtain ⟨r, _, hr⟩ := List.mem_map.mp hp'
  rw [← hr]

theorem score_search_results_sorted (rs : List SearchResult) (q : String)
    (es : List String) :
    (score_search_results rs q es).Pairwise
      (fun a b => score_result q es b ≤ score_result q es a) := by
  rw [score_search_results_eq]
  rw [List.pairwise_map]
  have hpw := pairwise_pySortBy scoredLt scoredLt_asymm scoredLt_negtrans
    (rs.map (fun r => (score_result q es r, r)))
  refine hpw.imp_of_mem ?_
  intro a b ha hb hab
  have ha' := mem_sorted_scored rs q es a ha
  have hb' := mem_sorted_scored rs q es b hb
  simp only [scoredLt, decide_eq_false_iff_not] at hab
  omega

theorem pairs_filter_fst (rs : List SearchResult) (q : String) (es : List String)
    (s : Nat) :
    (rs.map (fun r => (score_result q es r, r))).filter
        (fun p => decide (p.1 = s)) =
      (rs.filter (fun r => decide (score_result q es r = s))).map
        (fun r => (score_result q es r, r)) := by
  induction rs with
  | nil => rfl
  | cons r rs ih =>
    by_cases hs : score_result q es r = s
    · rw [List.map_cons, List.filter_cons, if_pos (by simpa using hs),
        List.filter_cons, if_pos (by simpa using hs), List.map_cons, ih]
    · rw [List.map_cons, List.filter_cons, if_neg (by simpa using hs),
        List.filter_cons, if_neg (by simpa using hs), ih]

theorem score_search_results_stable (rs : List SearchResult) (q : String)
    (es : List String) (s : Nat) :
    (score_search_results rs q es).filter
        (fun r => decide (score_result q es r = s)) =
      rs.filter (fun r => decide (score_result q es r = s)) := by
  rw [score_search_results_eq]
  rw [filter_map_swap]
  have hcongr : (pySortBy scoredLt (rs.map (fun r => (score_result q es r, r)))).filter
      (fun p => decide (score_result q es p.2 = s)) =
      (pySortBy scoredLt (rs.map (fun r => (score_result q es r, r)))).filter
      (fun p => decide (p.1 = s)) := by
    apply List.filter_congr
    intro p hp
    rw [mem_sorted_scored rs q es p hp]
  rw [hcongr, filter_pySortBy_key Prod.fst scoredLt scoredLt_key_ne s,
    pairs_filter_fst, List.map_map,
    show (Prod.snd ∘ fun r : SearchResult => (score_result q es r, r)) = id from rfl,
    List.map_id]

theorem lexLt_asymm : ∀ a b : List Char, lexLt a b = true → lexLt b a = false := by
  intro a
  induction a with
  | nil =>
    intro b h
    cases b with
    | nil => simp [lexLt] at h
    | cons y ys => simp [lexLt]
  | cons x xs ih =>
    intro b h
    cases b with
    | nil => simp [lexLt] at h
    | cons y ys =>
      by_cases h1 : x.toNat < y.toNat
      · have h2 : ¬ y.toNat < x.toNat := by omega
        simp [lexLt, h1, h2]
      · by_cases h2 : y.toNat < x.toNat
        · simp [lexLt, h1, h2] at h
        · simp only [lexLt, if_neg h1, if_neg h2] at h
          simp only [lexLt, if_neg h2, if_neg h1]
          exact ih ys h

theorem lexLt_negtrans :
    ∀ a b c : List Char, lexLt b a = false → lexLt c b = false →
      lexLt c a = false := by
  intro a
  induction a with
  | nil =>
    intro b c _ _
    cases c <;> rfl
  | cons x xs ih =>
    intro b c h1 h2
    cases b with
    | nil => simp [lexLt] at h1
    | cons y ys =>
      cases c with
      | nil => simp [lexLt] at h2
      | cons z zs =>
        by_cases hyx : y.toNat < x.toNat
        · simp [lexLt, hyx] at h1
        · by_cases hzy : z.toNat < y.toNat
          · simp [lexLt, hzy] at h2
          · simp only [lexLt, if_neg hyx] at h1
            simp only [lexLt, if_neg hzy] at h2
            have hzx : ¬ z.toNat < x.toNat := by omega
            simp only [lexLt, if_neg hzx]
            by_cases hxz : x.toNat < z.toNat
            · rw [if_pos hxz]
            · rw [if_neg hxz]
              have hxy : ¬ x.toNat < y.toNat := by omega
              have hyz : ¬ y.toNat < z.toNat := by omega
              rw [if_neg hxy] at h1
              rw [if_neg hyz] at h2
              exact ih ys zs h1 h2

theorem wordKeyLt_asymm (a b : String) :
    wordKeyLt a b = true → wordKeyLt b a = false := by
  intro h
  simp only [wordKeyLt, Bool.or_eq_true, Bool.and_eq_true, decide_eq_true_eq,
    beq_iff_eq] at h
  simp only [wordKeyLt, Bool.or_eq_false_iff, Bool.and_eq_false_iff,
    decide_eq_false_iff_not, beq_eq_false_iff_ne]
  rcases h with h | ⟨heq, hlex⟩
  · exact ⟨by omega, Or.inl (by omega)⟩
  · exact ⟨by omega, Or.inr (lexLt_asymm _ _ hlex)⟩

theorem wordKeyLt_negtrans (a b c : String) :
    wordKeyLt b a = false → wordKeyLt c b = false → wordKeyLt c a = false := by
  intro h1 h2
  simp only [wordKeyLt, Bool.or_eq_false_iff, Bool.and_eq_false_iff,
    decide_eq_false_iff_not, beq_eq_false_iff_ne] at h1 h2 ⊢
  obtain ⟨h1l, h1r⟩ := h1
  obtain ⟨h2l, h2r⟩ := h2
  refine ⟨by omega, ?_⟩
  by_cases hca : c.length = a.length
  · refine Or.inr ?_
    have hcb : c.length = b.length := by omega
    have hba : b.length = a.length := by omega
    rcases h1r with h1r | h1r
    · exact absurd hba h1r
    · rcases h2r with h2r | h2r
      · exact absurd hcb h2r
      · exact lexLt_negtrans a.toList b.toList c.toList h1r h2r
  · exact Or.inl hca

theorem meaningful_sorted (q : String) :
    (extract_meaningful_words q).Pairwise (fun a b => wordKeyLt b a = false) :=
  pairwise_pySortBy wordKeyLt wordKeyLt_asymm wordKeyLt_negtrans _

theorem meaningful_len_antitone (q : String) :
    (extract_meaningful_words q).Pairwise
      (fun a b => decide (4 ≤ b.length) = true → decide (4 ≤ a.length) = true) := by
  refine (meaningful_sorted q).imp ?_
  intro a b hab
  simp only [wordKeyLt, Bool.or_eq_false_iff, Bool.and_eq_false_iff,
    decide_eq_false_iff_not, beq_eq_false_iff_ne] at hab
  simp only [decide_eq_true_eq]
  omega

theorem pass3_words_eq (q : String)
    (h2 : 2 ≤ (extract_meaningful_words q).length) :
    pass3_searched_words q = claim_pass3_words q := by
  have hne : extract_meaningful_words q ≠ [] := by
    intro h
    rw [h] at h2
    simp at h2
  unfold pass3_searched_words claim_pass3_words
  rw [if_pos ⟨hne, h2⟩]
  rw [take_filter_of_antitone _ _ (meaningful_len_antitone q) 3]
  congr 1
  show (pySortBy wordKeyLt _).filter _ = _
  rw [filter_pySortBy_comm wordKeyLt wordKeyLt_asymm wordKeyLt_negtrans]
  congr 1
  rw [List.filter_filter]
  apply List.filter_congr
  intro t _
  by_cases hs : t ∈ STOP_WORDS
  · simp [meaningfulPred, hs]
  · by_cases htp : t ∈ TEMPORAL_TOKENS
    · simp [meaningfulPred, htp]
    · by_cases h4 : 4 ≤ t.length
      · simp [meaningfulPred, hs, htp, h4, show 3 ≤ t.length by omega]
      · simp [meaningfulPred, hs, htp, h4]

theorem pass3_fold_filter (db : DbOracle) :
    ∀ (words : List String) (acc : List SearchResult),
      words.foldl (pass3_body db) acc =
        (words.filter (fun w => decide (4 ≤ w.length))).foldl
          (fun a w => addNew a (db.search w 5)) acc := by
  intro words
  induction words with
  | nil => intro acc; rfl
  | cons w ws ih =>
    intro acc
    by_cases h4 : 4 ≤ w.length
    · rw [List.foldl_cons, List.filter_cons, if_pos (by simpa using h4),
        List.foldl_cons]
      rw [show pass3_body db acc w = addNew acc (db.search w 5) from by
        simp [pass3_body, h4]]
      exact ih _
    · rw [List.foldl_cons, List.filter_cons, if_neg (by simpa using h4)]
      rw [show pass3_body db acc w = acc from by simp [pass3_body, h4]]
      exact ih _

theorem urlsOf_append (a b : List SearchResult) :
    urlsOf (a ++ b) = urlsOf a ++ urlsOf b := by
  simp [urlsOf]

theorem pass3_fold_new_urls (db : DbOracle) :
    ∀ (words : List String) (acc : List SearchResult) (r : SearchResult),
      r ∈ words.foldl (pass3_body db) acc → r ∈ acc ∨ r.url ∉ urlsOf acc := by
  intro words
  induction words with
  | nil =>
    intro acc r hr
    exact Or.inl hr
  | cons w ws ih =>
    intro acc r hr
    rw [List.foldl_cons] at hr
    have step : ∀ x, x ∈ pass3_body db acc w → x ∈ acc ∨ x.url ∉ urlsOf acc := by
      intro x hx
      unfold pass3_body at hx
      by_cases h4 : 4 ≤ w.length
      · rw [if_pos h4] at hx
        unfold addNew at hx
        rcases List.mem_append.mp hx with hx' | hx'
        · exact Or.inl hx'
        · right
          have := List.of_mem_filter hx'
          simpa using this
      · rw [if_neg h4] at hx
        exact Or.inl hx
    rcases ih (pass3_body db acc w) r hr with hr' | hr'
    · exact step r hr'
    · right
      intro hmem
      apply hr'
      unfold pass3_body
      by_cases h4 : 4 ≤ w.length
      · rw [if_pos h4]
        unfold addNew
        rw [urlsOf_append]
        exact List.mem_append.mpr (Or.inl hmem)
      · rw [if_neg h4]
        exact hmem

/-! ## Claim C8 -/

/-- Claim C8 counterexample: for the query `"the ownership"` the claim's
reading yields one single-word search (`"ownership"`, the sole meaningful
word of length ≥ 4), but the code requires at least two meaningful words of
length ≥ 3 before running the third pass, so no single-word search is
issued: a link that only the batch-5 `"ownership"` search would find is not
returned. -/
theorem pass3_missing_gate_counterexample :
    claim_pass3_words "the ownership" = ["ownership"]
    ∧ pass3_searched_words "the ownership" = []
    ∧ find_links_by_query Fix.dbGate 0 "the ownership" 5 = []
    ∧ Fix.dbGate.search "ownership" 5 ≠ [] := by
  refine ⟨by decide, by decide, by decide, by decide⟩

/-- Claim C8 (amended): the third pass runs only when the query has at
least two meaningful words — meaningful meaning length ≥ 3 with stop-words
and temporal tokens excluded, sorted longest-first; when it runs, a batch-5
single-word search is issued exactly for the words of length ≥ 4 among the
top 3 meaningful words (equivalently, for the top 3 words of length ≥ 4
sorted longest-first, as the claim words it), and each search only adds
rows whose URL is not already in the accumulated set. -/
theorem pass3_single_word_searches_amended :
    (∀ q : String, 2 ≤ (extract_meaningful_words q).length →
        pass3_searched_words q = claim_pass3_words q)
    ∧ (∀ q : String, (extract_meaningful_words q).length < 2 →
        pass3_searched_words q = [])
    ∧ (∀ (db : DbOracle) (q : String) (acc : List SearchResult),
        extract_meaningful_words q ≠ [] ∧ 2 ≤ (extract_meaningful_words q).length →
        ((extract_meaningful_words q).take 3).foldl (pass3_body db) acc =
          (pass3_searched_words q).foldl
            (fun a w => addNew a (db.search w 5)) acc)
    ∧ (∀ (db : DbOracle) (words : List String) (acc : List SearchResult)
        (r : SearchResult),
        r ∈ words.foldl (pass3_body db) acc → r ∈ acc ∨ r.url ∉ urlsOf acc) := by
  refine ⟨pass3_words_eq, ?_, ?_, pass3_fold_new_urls⟩
  · intro q h2
    unfold pass3_searched_words
    have hcond : ¬ (extract_meaningful_words q ≠ [] ∧
        2 ≤ (extract_meaningful_words q).length) := by
      intro hand
      exact absurd hand.2 (by omega)
    rw [if_neg hcond]
  · intro db q acc hgate
    rw [pass3_fold_filter db]
    unfold pass3_searched_words
    rw [if_pos hgate]

/-- Claim C8 witness: the amended theorem applied to the two-meaningful-word
query `"rust ownership"`. -/
theorem pass3_single_word_searches_amended_witness :
    pass3_searched_words "rust ownership" = claim_pass3_words "rust ownership" :=
  pass3_single_word_searches_amended.1 "rust ownership" (by decide)

/-! ## Claim C5 -/

theorem setInter_nil (a : List String) : setInter a [] = 0 := by
  simp [setInter]

theorem score_result_eq_claim (q : String) (es : List String) (r : SearchResult) :
    score_result q es r = score_claim q es r := by
  unfold score_result score_claim
  by_cases ht : pyLower (pyOrEmpty r.title) = "" <;>
    by_cases hs : pyLower (pyOrEmpty (pyOr r.ai_summary r.description)) = "" <;>
      by_cases hc : pyLower (String.intercalate " " r.categories) = "" <;>
        by_cases he : es = [] <;>
          simp only [ht, hs, hc, he, if_pos, if_neg, ite_not, if_true, if_false,
            wordTokens, splitRuns, List.isEmpty_nil, setInter_nil, ne_eq,
            not_true_eq_false, not_false_eq_true, ite_true, ite_false,
            List.length_nil, List.filter_nil, String.toList_empty, Nat.mul_zero,
            Nat.zero_mul] <;>
          ring

/-- Claim C5: the retriever's scorer awards +3 per query word in the
title's word set, +2 per query word in the summary/description word set,
+2 per query word in the joined category text's word set, +5 per extracted
entity token occurring as a substring of title or summary, and +10 when the
full lowercased query occurs verbatim in title or summary; the scored
results are a permutation of the candidates, sorted by score descending
with ties in original discovery order, and `find_links_by_query` returns
them truncated to the requested limit. -/
theorem retriever_scoring_contract :
    (∀ (q : String) (es : List String) (r : SearchResult),
        score_result q es r = score_claim q es r)
    ∧ (∀ (rs : List SearchResult) (q : String) (es : List String),
        (score_search_results rs q es).Perm rs)
    ∧ (∀ (rs : List SearchResult) (q : String) (es : List String),
        (score_search_results rs q es).Pairwise
          (fun a b => score_result q es b ≤ score_result q es a))
    ∧ (∀ (rs : List SearchResult) (q : String) (es : List String) (s : Nat),
        (score_search_results rs q es).filter
            (fun r => decide (score_result q es r = s)) =
          rs.filter (fun r => decide (score_result q es r = s)))
    ∧ (∀ (db : DbOracle) (now : Int) (q0 : String) (limit : Nat),
        pyStrip q0 ≠ "" →
        strContains (pyLower (pyStrip q0)) "recent" = false →
        strContains (pyLower (pyStrip q0)) "latest" = false →
        (find_links_by_query db now q0 limit).Pairwise
            (fun a b =>
              score_result (pyStrip q0) (extract_entities (pyStrip q0)) b ≤
                score_result (pyStrip q0) (extract_entities (pyStrip q0)) a)
          ∧ (find_links_by_query db now q0 limit).length ≤ limit) := by
  refine ⟨score_result_eq_claim, score_search_results_perm,
    score_search_results_sorted, score_search_results_stable, ?_⟩
  intro db now q0 limit hne hrec hlat
  have hcond : (strContains (pyLower (pyStrip q0)) "recent" ||
      strContains (pyLower (pyStrip q0)) "latest") = false := by
    simp [hrec, hlat]
  unfold find_links_by_query
  rw [if_neg hne, if_neg (by rw [hcond]; simp)]
  constructor
  · exact List.Pairwise.sublist (List.take_sublist _ _)
      (score_search_results_sorted _ _ _)
  · exact List.length_take_le _ _

/-- Claim C5 witness: applying the contract to a concrete query and
database (the closed scoring facts of the counter-free conjuncts are
evaluated at the spec's own ranking example). -/
theorem retriever_scoring_contract_witness :
    ((find_links_by_query Fix.dbRust 0 "rust ownership" 5).Pairwise
        (fun a b =>
          score_result (pyStrip "rust ownership")
              (extract_entities (pyStrip "rust ownership")) b ≤
            score_result (pyStrip "rust ownership")
              (extract_entities (pyStrip "rust ownership")) a)
      ∧ (find_links_by_query Fix.dbRust 0 "rust ownership" 5).length ≤ 5)
    ∧ find_links_by_query Fix.dbRust 0 "rust ownership" 5 = [Fix.rRust, Fix.rPasta]
    ∧ score_result "rust ownership" [] Fix.rRust = 22
    ∧ score_result "rust ownership" [] Fix.rPasta = 0 :=
  ⟨retriever_scoring_contract.2.2.2.2 Fix.dbRust 0 "rust ownership" 5
      (by decide) (by decide) (by decide),
    by decide, by decide, by decide⟩

/-! ## Claim C9 -/

/-- Claim C9: a query containing `"recent"` or `"latest"` (case-insensitive
substring of the stripped query) returns exactly the recent-links path
`get_recent_links(user, limit)`, bypassing temporal extraction, the search
passes and all scoring. -/
theorem find_links_recent_shortcircuit (db : DbOracle) (now : Int) (q0 : String)
    (limit : Nat)
    (h : strContains (pyLower (pyStrip q0)) "recent" = true ∨
      strContains (pyLower (pyStrip q0)) "latest" = true) :
    find_links_by_query db now q0 limit = db.recent limit := by
  have hne : pyStrip q0 ≠ "" := by
    intro he
    rw [he] at h
    revert h
    decide
  have hcond : (strContains (pyLower (pyStrip q0)) "recent" ||
      strContains (pyLower (pyStrip q0)) "latest") = true := by
    rcases h with h | h <;> simp [h]
  unfold find_links_by_query
  rw [if_neg hne, if_pos hcond]

/-- Claim C9 witness: `"show me recent stuff"` short-circuits to the
recent-links path. -/
theorem find_links_recent_shortcircuit_witness :
    find_links_by_query Fix.dbRust 0 "show me recent stuff" 5 =
      Fix.dbRust.recent 5 :=
  find_links_recent_shortcircuit Fix.dbRust 0 "show me recent stuff" 5
    (Or.inl (by decide))

/-! ## Claim C10 -/

/-- Claim C10: when a temporal lower bound is extracted from the query, the
filter excludes both every candidate whose creation timestamp precedes the
bound and every candidate whose `created_at` is absent/null — every
returned link carries a timestamp at or after the bound. -/
theorem find_links_time_filter_excludes (db : DbOracle) (now : Int) (q0 : String)
    (limit : Nat) (ws : Int)
    (hrec : strContains (pyLower (pyStrip q0)) "recent" = false)
    (hlat : strContains (pyLower (pyStrip q0)) "latest" = false)
    (hw : extract_time_filter now (pyLower (pyStrip q0)) = some ws) :
    ∀ r ∈ find_links_by_query db now q0 limit,
      ∃ t, r.created_at = some t ∧ ws ≤ t := by
  intro r hr
  unfold find_links_by_query at hr
  by_cases hne : pyStrip q0 = ""
  · rw [if_pos hne] at hr
    cases hr
  · rw [if_neg hne, if_neg (by simp [hrec, hlat])] at hr
    rw [hw] at hr
    have hr2 := List.Sublist.subset (List.take_sublist _ _) hr
    have hr3 := (score_search_results_perm _ _ _).mem_iff.mp hr2
    have hr4 := List.of_mem_filter hr3
    unfold createdAtOk at hr4
    cases hca : r.created_at with
    | none => rw [hca] at hr4; cases hr4
    | some t =>
      rw [hca] at hr4
      exact ⟨t, rfl, by simpa using hr4⟩

/-- Claim C10 witness: for `"pasta last week"` at `now = 1000000` the bound
is `395200`; the returned links all carry timestamps at or after it, so the
1000-second-old and the undated pasta links are excluded. -/
theorem find_links_time_filter_excludes_witness :
    (∀ r ∈ find_links_by_query Fix.dbPasta 1000000 "pasta last week" 5,
        ∃ t, r.created_at = some t ∧ (395200 : Int) ≤ t)
    ∧ find_links_by_query Fix.dbPasta 1000000 "pasta last week" 5 = [Fix.rPasta] :=
  ⟨find_links_time_filter_excludes Fix.dbPasta 1000000 "pasta last week" 5
      395200 (by decide) (by decide) (by decide),
    by decide⟩

end Retriever

/-! ## Claim C6 -/

namespace Intel

/-- Claim C6: the embedding generator returns null on empty input and on
any call failure or falsy response vector (single attempt, nothing
raised); on success it returns the vector and the model used; and the
handler call site submits the text truncated to 4000 characters. -/
theorem embedding_generator_contract :
    (∀ (svc : String → String → EmbedOutcome) (dm : String) (model : Option String),
        generate_embedding svc dm "" model = none)
    ∧ embedding_calls "" = 0
    ∧ (∀ (svc : String → String → EmbedOutcome) (dm : String)
        (model : Option String) (t e : String), t ≠ "" →
        svc (pyOrStr model dm) t = EmbedOutcome.raises e →
        generate_embedding svc dm t model = none)
    ∧ (∀ (svc : String → String → EmbedOutcome) (dm : String)
        (model : Option String) (t : String), t ≠ "" →
        svc (pyOrStr model dm) t = EmbedOutcome.ok none →
        generate_embedding svc dm t model = none)
    ∧ (∀ (svc : String → String → EmbedOutcome) (dm : String)
        (model : Option String) (t : String), t ≠ "" →
        svc (pyOrStr model dm) t = EmbedOutcome.ok (some []) →
        generate_embedding svc dm t model = none)
    ∧ (∀ (svc : String → String → EmbedOutcome) (dm : String)
        (model : Option String) (t : String) (v : List Int), t ≠ "" → v ≠ [] →
        svc (pyOrStr model dm) t = EmbedOutcome.ok (some v) →
        generate_embedding svc dm t model = some ⟨v, pyOrStr model dm⟩)
    ∧ (∀ t : String, embedding_calls t ≤ 1)
    ∧ (∀ t : String, (handler_embedding_input t).toList = t.toList.take 4000
        ∧ (handler_embedding_input t).length ≤ 4000) := by
  refine ⟨?_, rfl, ?_, ?_, ?_, ?_, ?_, ?_⟩
  · intro svc dm model
    rfl
  · intro svc dm model t e ht hsvc
    unfold generate_embedding
    rw [if_neg ht]
    simp only [hsvc]
  · intro svc dm model t ht hsvc
    unfold generate_embedding
    rw [if_neg ht]
    simp only [hsvc]
  · intro svc dm model t ht hsvc
    unfold generate_embedding
    rw [if_neg ht]
    simp only [hsvc, if_pos]
  · intro svc dm model t v ht hv hsvc
    unfold generate_embedding
    rw [if_neg ht]
    simp only [hsvc]
    simp [hv]
  · intro t
    unfold embedding_calls
    by_cases ht : t = "" <;> simp [ht]
  · intro t
    refine ⟨rfl, ?_⟩
    show (t.toList.take 4000).length ≤ 4000
    rw [List.length_take]
    exact min_le_left _ _

/-- Claim C6 witness: the contract applied to a concrete service. -/
theorem embedding_generator_contract_witness :
    generate_embedding (fun _ _ => EmbedOutcome.ok (some [3, 1]))
        "text-embedding-3-small" "some text" none =
      some ⟨[3, 1], "text-embedding-3-small"⟩ :=
  embedding_generator_contract.2.2.2.2.2.1
    (fun _ _ => EmbedOutcome.ok (some [3, 1])) "text-embedding-3-small" none
    "some text" [3, 1] (by decide) (by decide) rfl

/-! ## Claim C7 -/

/-- Claim C7: on non-empty text, a raised enrichment call retries exactly
once on the fixed fallback model `"gpt-4o-mini"` provided no model was
explicitly supplied and the first call was not already on it; if the retry
also raises — or the retry was skipped because a model was supplied or the
default already is the fallback — the fixed degraded-default object is
returned (never an exception); empty text returns the default immediately
with no call. -/
theorem enrichment_retry_contract :
    (∀ (svc : String → String → ChatOutcome) (dm : String)
        (model : Option String) (uc : Option String),
        analyze_text_content svc dm "" model uc = DEFAULT_ANALYSIS
          ∧ analyze_calls svc dm "" model uc = [])
    ∧ (∀ (svc : String → String → ChatOutcome) (dm t : String)
        (uc : Option String) (e : String), t ≠ "" → dm ≠ "gpt-4o-mini" →
        svc dm (user_message uc t) = ChatOutcome.raises e →
        analyze_text_content svc dm t none uc =
            analyze_text_content svc dm t (some "gpt-4o-mini") none
          ∧ analyze_calls svc dm t none uc =
            dm :: analyze_calls svc dm t (some "gpt-4o-mini") none)
    ∧ (∀ (svc : String → String → ChatOutcome) (dm t : String)
        (uc : Option String) (e e2 : String), t ≠ "" → dm ≠ "gpt-4o-mini" →
        svc dm (user_message uc t) = ChatOutcome.raises e →
        svc "gpt-4o-mini" (user_message none t) = ChatOutcome.raises e2 →
        analyze_text_content svc dm t none uc = DEFAULT_ANALYSIS
          ∧ analyze_calls svc dm t none uc = [dm, "gpt-4o-mini"])
    ∧ (∀ (svc : String → String → ChatOutcome) (dm t m : String)
        (uc : Option String) (e : String), t ≠ "" → m ≠ "" →
        svc m (user_message uc t) = ChatOutcome.raises e →
        analyze_text_content svc dm t (some m) uc = DEFAULT_ANALYSIS
          ∧ analyze_calls svc dm t (some m) uc = [m])
    ∧ (∀ (svc : String → String → ChatOutcome) (t : String)
        (uc : Option String) (e : String), t ≠ "" →
        svc "gpt-4o-mini" (user_message uc t) = ChatOutcome.raises e →
        analyze_text_content svc "gpt-4o-mini" t none uc = DEFAULT_ANALYSIS
          ∧ analyze_calls svc "gpt-4o-mini" t none uc = ["gpt-4o-mini"])
    ∧ (∀ (svc : String → String → ChatOutcome) (dm t : String)
        (model uc : Option String), t ≠ "" →
        svc (pyOrStr model dm) (user_message uc t) = ChatOutcome.noChoices →
        analyze_text_content svc dm t model uc = DEFAULT_ANALYSIS)
    ∧ (∀ (svc : String → String → ChatOutcome) (dm t : String)
        (model uc : Option String), t ≠ "" →
        svc (pyOrStr model dm) (user_message uc t) = ChatOutcome.emptyPayload →
        analyze_text_content svc dm t model uc = DEFAULT_ANALYSIS)
    ∧ (∀ (svc : String → String → ChatOutcome) (dm t : String)
        (model uc : Option String) (raw : Option RawAnalysis), t ≠ "" →
        svc (pyOrStr model dm) (user_message uc t) = ChatOutcome.ok raw →
        analyze_text_content svc dm t model uc = normalise_ai_output raw) := by
  refine ⟨?_, ?_, ?_, ?_, ?_, ?_, ?_, ?_⟩
  · intro svc dm model uc
    refine ⟨?_, ?_⟩
    · rw [analyze_text_content]
      simp
    · rw [analyze_calls]
      simp
  · intro svc dm t uc e ht hdm hsvc
    have hmtu : pyOrStr (none : Option String) dm = dm := rfl
    constructor
    · conv =>
        lhs
        rw [analyze_text_content]
      rw [if_neg ht]
      simp only [hmtu, hsvc]
      rw [if_pos ⟨rfl, hdm⟩]
    · conv =>
        lhs
        rw [analyze_calls]
      rw [if_neg ht]
      simp only [hmtu, hsvc]
      rw [if_pos ⟨rfl, hdm⟩]
  · intro svc dm t uc e e2 ht hdm hsvc hsvc2
    have hmtu2 : pyOrStr (some "gpt-4o-mini") dm = "gpt-4o-mini" := rfl
    have hmtu : pyOrStr (none : Option String) dm = dm := rfl
    have h1 : analyze_text_content svc dm t (some "gpt-4o-mini") none =
        DEFAULT_ANALYSIS := by
      rw [analyze_text_content]
      rw [if_neg ht]
      simp only [hmtu2, hsvc2]
      rw [if_neg (by intro hand; exact absurd rfl hand.2)]
    have h2 : analyze_calls svc dm t (some "gpt-4o-mini") none =
        ["gpt-4o-mini"] := by
      rw [analyze_calls]
      rw [if_neg ht]
      simp only [hmtu2, hsvc2]
      rw [if_neg (by intro hand; exact absurd rfl hand.2)]
    constructor
    · rw [analyze_text_content]
      rw [if_neg ht]
      simp only [hmtu, hsvc]
      rw [if_pos ⟨rfl, hdm⟩]
      exact h1
    · rw [analyze_calls]
      rw [if_neg ht]
      simp only [hmtu, hsvc]
      rw [if_pos ⟨rfl, hdm⟩]
      rw [h2]
  · intro svc dm t m uc e ht hm hsvc
    have hmtu : pyOrStr (some m) dm = m := by
      unfold pyOrStr optStrFalsy pyOrEmpty
      simp [hm]
    have hguard : ¬ (optStrFalsy (some m) = true ∧ m ≠ "gpt-4o-mini") := by
      intro hand
      have : m = "" := by simpa [optStrFalsy] using hand.1
      exact hm this
    constructor
    · rw [analyze_text_content]
      rw [if_neg ht]
      simp only [hmtu, hsvc]
      rw [if_neg hguard]
    · rw [analyze_calls]
      rw [if_neg ht]
      simp only [hmtu, hsvc]
      rw [if_neg hguard]
  · intro svc t uc e ht hsvc
    have hmtu : pyOrStr (none : Option String) "gpt-4o-mini" = "gpt-4o-mini" := rfl
    constructor
    · rw [analyze_text_content]
      rw [if_neg ht]
      simp only [hmtu, hsvc]
      rw [if_neg (by intro hand; exact absurd rfl hand.2)]
    · rw [analyze_calls]
      rw [if_neg ht]
      simp only [hmtu, hsvc]
      rw [if_neg (by intro hand; exact absurd rfl hand.2)]
  · intro svc dm t model uc ht hsvc
    rw [analyze_text_content]
    rw [if_neg ht]
    simp only [hsvc]
  · intro svc dm t model uc ht hsvc
    rw [analyze_text_content]
    rw [if_neg ht]
    simp only [hsvc]
  · intro svc dm t model uc raw ht hsvc
    rw [analyze_text_content]
    rw [if_neg ht]
    simp only [hsvc]

/-- Claim C7 witness: a service that always raises, called with the
non-fallback default model, retries once on `"gpt-4o-mini"` and returns the
degraded default. -/
theorem enrichment_retry_contract_witness :
    analyze_text_content (fun _ _ => ChatOutcome.raises "boom") "gpt-4o" "text"
        none none = DEFAULT_ANALYSIS
      ∧ analyze_calls (fun _ _ => ChatOutcome.raises "boom") "gpt-4o" "text"
        none none = ["gpt-4o", "gpt-4o-mini"] :=
  enrichment_retry_contract.2.2.1 (fun _ _ => ChatOutcome.raises "boom")
    "gpt-4o" "text" none "boom" "boom" (by decide) (by decide) rfl rfl

end Intel

end Silo
